import Mathlib

/-!
# NVMe subsystem (`hw/block/nvme-subsys.c`, `hw/block/nvme-subsys.h`)

A shallow embedding of the subsystem bookkeeping code: the controller and
namespace slot tables, the ANA group table, registration, ANA state changes
with their notifications, the one-time setup and the monitor command that
injects an ANA state.

Conventions of the embedding.

* A C array `T a[n]` is a `CArray T n` (a list of exactly `n` cells).  Reading or
  writing outside `0 .. n-1` is undefined behaviour in C; every operation
  returns an `Option`, and `none` stands for such an access (or for `strcmp`
  on a NULL pointer).
* A pointer slot is an `Option`; `none` is NULL.
* Unsigned machine integers are `Nat`, reduced `% 2^w` where a conversion
  narrows.
* C strings are lists of bytes, without the terminating NUL.
* Calls that leave the file (`nvme_notice_event`, `nvme_register_namespace`,
  `monitor_printf`) are recorded: notifications and callback invocations in
  logs, the printed line as a value.
-/

namespace NvmeSubsys

/-! ## Arrays, strings, bitmaps -/

/-- A C array with `n` cells. -/
abbrev CArray (α : Type) (n : Nat) := Mathlib.Vector α n

/-- The value of `a[i]`, or `none` when `i` is outside the array. -/
def CArray.read? {α : Type} {n : Nat} (a : CArray α n) (i : Nat) : Option α :=
  if h : i < n then some (a.get ⟨i, h⟩) else none

/-- The array after `a[i] = x`, or `none` when `i` is outside the array. -/
def CArray.write? {α : Type} {n : Nat} (a : CArray α n) (i : Nat) (x : α) :
    Option (CArray α n) :=
  if h : i < n then some (a.set ⟨i, h⟩ x) else none

/-- A C string: its bytes, terminating NUL excluded. -/
abbrev CString := List Nat

/-- The bytes of an ASCII string literal. -/
def cstr (s : String) : CString := s.toList.map Char.toNat

/-- Modelled from the spec: the bitmap operation `set_bit(nr, addr)` of the
membership bitset (qemu/bitops.h is not among the sources); the bitmap is the
number whose binary digits are its bits. -/
def set_bit (nr : Nat) (addr : Nat) : Nat := addr ||| (1 <<< nr)

/-- Modelled from the spec: the bitmap operation `test_bit(nr, addr)`
(qemu/bitops.h is not among the sources). -/
def test_bit (nr : Nat) (addr : Nat) : Bool := addr.testBit nr

/-- Modelled from the spec: the bitmap operation `bitmap_count_one(bitmap, nbits)`
(qemu/bitmap.h is not among the sources): how many of the bits `0 .. nbits-1`
are set. -/
def bitmap_count_one (bitmap : Nat) (nbits : Nat) : Nat :=
  ((List.range nbits).filter (fun i => bitmap.testBit i)).length

/-! ## Constants and types of `nvme-subsys.h` -/

def NVME_SUBSYS_MAX_CTRLS : Nat := 32
def NVME_SUBSYS_MAX_NAMESPACES : Nat := 32
def NVME_SUBSYS_MAX_ANA_GROUP : Nat := NVME_SUBSYS_MAX_NAMESPACES
def NVME_SUBSYS_ANA_NSID_BITMAP_SIZE : Nat := NVME_SUBSYS_MAX_ANA_GROUP + 1

/-- A controller object, identified by its address.  A slot holding a
controller is `some n`. -/
abbrev NvmeCtrl := Nat

/-- The values of the `NVME_ANA_STATE_*` enumerators.  They are declared in
`include/block/nvme.h`, which is not among the sources, so the code is read
for arbitrary values. -/
structure NvmeAnaStateConsts where
  NVME_ANA_STATE_OPTIMIZED : Nat
  NVME_ANA_STATE_NON_OPTIMIZED : Nat
  NVME_ANA_STATE_INACCESSIBLE : Nat
  NVME_ANA_STATE_CHANGE : Nat
deriving DecidableEq, Repr

/-- The struct `NvmeAna`: `uint32_t grpid`, `uint8_t state` and the bitmap
`nsids` of `NVME_SUBSYS_ANA_NSID_BITMAP_SIZE` bits. -/
structure NvmeAna where
  grpid : Nat
  state : Nat
  nsids : Nat
deriving DecidableEq, Repr

def nvme_subsys_ana_register_ns (ana : NvmeAna) (nsid : Nat) : NvmeAna :=
  { ana with nsids := set_bit nsid ana.nsids }

def nvme_subsys_ana_has_ns (ana : NvmeAna) (nsid : Nat) : Bool :=
  test_bit nsid ana.nsids

def nvme_subsys_ana_nr_ns (ana : NvmeAna) : Nat :=
  bitmap_count_one ana.nsids NVME_SUBSYS_ANA_NSID_BITMAP_SIZE

/-- The fields of a namespace object that the subsystem code touches:
`params.nsid`, `params.anagrpid` and the back-reference `ana` (a pointer into
the subsystem's group table, kept as the index it points at; `none` is NULL).
`addr` is the address of the object, which is what a namespace slot stores. -/
structure NvmeNamespace where
  addr : Nat
  params_nsid : Nat
  params_anagrpid : Nat
  ana : Option Nat
deriving DecidableEq, Repr

/-- Modelled from the spec: `nvme_nsid(ns)`, the id a namespace carries
(nvme-ns.h is not among the sources). -/
def nvme_nsid (ns : NvmeNamespace) : Nat := ns.params_nsid

/-- The struct `NvmeSubsystem`.  `parent_obj_id` is `parent_obj.id`,
`params_ana` is `params.ana`. -/
structure NvmeSubsystem where
  parent_obj_id : CString
  subnqn : CArray Nat 256
  ctrls : CArray (Option NvmeCtrl) 32
  namespaces : CArray (Option Nat) 32
  ana : CArray NvmeAna 33
  ana_change_count : Nat
  params_ana : Bool
deriving DecidableEq

/-- What `error_setg` stores through `errp`. -/
inductive Error where
  | no_free_cntlid
  | ns_already_registered (nsid : Nat) (id : CString)
  | ctrl_failure (reason : Nat)
deriving DecidableEq, Repr

/-- The event kinds passed to `nvme_notice_event`. -/
inductive NvmeAerInfo where
  | NVME_AER_INFO_ANA_CHANGE
deriving DecidableEq, Repr

/-- One call `nvme_notice_event(n, info)`. -/
abbrev Notice := NvmeCtrl × NvmeAerInfo

/-! ## `nvme_subsys_register_ctrl` -/

/-- The scan `for (cntlid = 0; cntlid < ARRAY_SIZE(ctrls); cntlid++) if (!ctrls[cntlid]) break;`
over the cells from `cntlid` on: the value of `cntlid` when the loop ends. -/
def register_ctrl_scan : List (Option NvmeCtrl) → Nat → Nat
  | [], cntlid => cntlid
  | none :: _, cntlid => cntlid
  | some _ :: rest, cntlid => register_ctrl_scan rest (cntlid + 1)

/-- The result of `nvme_subsys_register_ctrl`: the returned `int`, the error
set through `errp` and the subsystem afterwards. -/
structure RegisterCtrlResult where
  ret : Int
  errp : Option Error
  subsys : NvmeSubsystem
deriving DecidableEq

def nvme_subsys_register_ctrl (subsys : NvmeSubsystem) (n : NvmeCtrl) :
    Option RegisterCtrlResult :=
  let cntlid := register_ctrl_scan subsys.ctrls.toList 0
  if cntlid = 32 then
    some { ret := -1, errp := some Error.no_free_cntlid, subsys := subsys }
  else do
    let ctrls ← subsys.ctrls.write? cntlid (some n)
    some { ret := (cntlid : Int), errp := none, subsys := { subsys with ctrls := ctrls } }

/-- A sequence of `nvme_subsys_register_ctrl` calls, one per controller of the
list, each on the subsystem the previous call left: the returned values in
call order and the subsystem after the last call. -/
def register_ctrls : NvmeSubsystem → List NvmeCtrl → Option (List Int × NvmeSubsystem)
  | s, [] => some ([], s)
  | s, n :: rest => do
    let r ← nvme_subsys_register_ctrl s n
    let p ← register_ctrls r.subsys rest
    some (r.ret :: p.1, p.2)

/-! ## `nvme_subsys_ana_state_change` -/

/-- The loop `for (cntlid = 0; cntlid < ARRAY_SIZE(ctrls); cntlid++)` of
`nvme_subsys_ana_state_change` over the cells still to visit: the calls
`nvme_notice_event(ctrls[cntlid], NVME_AER_INFO_ANA_CHANGE)` it makes, in
order. -/
def ana_change_notify : List (Option NvmeCtrl) → List Notice
  | [] => []
  | none :: rest => ana_change_notify rest
  | some n :: rest => (n, NvmeAerInfo.NVME_AER_INFO_ANA_CHANGE) :: ana_change_notify rest

/-- The subsystem afterwards and the notifications enqueued by the call, in
order.  `grpid` is a `uint32_t`, `state` a `uint8_t`. -/
def nvme_subsys_ana_state_change (subsys : NvmeSubsystem) (grpid : Nat) (state : Nat) :
    Option (NvmeSubsystem × List Notice) := do
  let a ← subsys.ana.read? grpid
  let old := a.state
  if state = old then
    some (subsys, [])
  else do
    let ana ← subsys.ana.write? grpid { a with state := state }
    let subsys := { subsys with ana := ana }
    some (subsys, ana_change_notify subsys.ctrls.toList)

/-! ## `nvme_subsys_ana_states` and `hmp_nvme_ana_inject_state` -/

/-- One designated initializer `[i] = s` of a `const char *` array whose size
is left to the compiler: the array grows to hold index `i`, cells that no
initializer names are NULL, a later initializer for the same index wins. -/
def designate (tbl : List (Option CString)) (i : Nat) (s : CString) :
    List (Option CString) :=
  (tbl ++ List.replicate (i + 1 - tbl.length) none).set i (some s)

/-- The table `nvme_subsys_ana_states[]`: `""` at index 0, then the four
designated names. -/
def nvme_subsys_ana_states (K : NvmeAnaStateConsts) : List (Option CString) :=
  designate
    (designate
      (designate
        (designate [some (cstr "")] K.NVME_ANA_STATE_OPTIMIZED (cstr "optimized"))
        K.NVME_ANA_STATE_NON_OPTIMIZED (cstr "non-optimized"))
      K.NVME_ANA_STATE_INACCESSIBLE (cstr "inaccessible"))
    K.NVME_ANA_STATE_CHANGE (cstr "change")

/-- The line `hmp_nvme_ana_inject_state` prints with `monitor_printf`. -/
inductive HmpOutput where
  | invalid_device_id (id : CString)
  | grpid_should_not_be_0 (id : CString)
  | state_injected (id : CString) (state : CString) (i : Nat)
  | invalid_state (id : CString) (state : CString)
deriving DecidableEq, Repr

/-- The effect of one `hmp_nvme_ana_inject_state` command: the printed line,
the looked-up subsystem afterwards (`none` when the lookup found none) and
the notifications enqueued. -/
structure HmpResult where
  out : HmpOutput
  dev : Option NvmeSubsystem
  notices : List Notice
deriving DecidableEq

/-- The loop `for (i = 0; i < ARRAY_SIZE(nvme_subsys_ana_states); i++)` over
the table cells from index `i` on.  `strcmp` with a NULL cell is undefined;
the `int i` is narrowed to the `uint8_t state` parameter. -/
def inject_scan (subsys : NvmeSubsystem) (id : CString) (grpid : Nat) (state : CString) :
    List (Option CString) → Nat → Option HmpResult
  | [], _ =>
    some { out := HmpOutput.invalid_state id state, dev := some subsys, notices := [] }
  | none :: _, _ => none
  | some name :: rest, i =>
    if name = state then do
      let r ← nvme_subsys_ana_state_change subsys grpid (i % 256)
      some { out := HmpOutput.state_injected id state i, dev := some r.1, notices := r.2 }
    else
      inject_scan subsys id grpid state rest (i + 1)

/-- The monitor command.  `dev` is what `qdev_find_recursive` returns for `id`,
`grpid` is the `int64_t` that `qdict_get_int` returns, narrowed to the
`uint32_t grpid` local. -/
def hmp_nvme_ana_inject_state (K : NvmeAnaStateConsts) (dev : Option NvmeSubsystem)
    (id : CString) (grpid : Int) (state : CString) : Option HmpResult :=
  let grpid : Nat := (grpid % 4294967296).toNat
  match dev with
  | none => some { out := HmpOutput.invalid_device_id id, dev := none, notices := [] }
  | some subsys =>
    if grpid = 0 then
      some { out := HmpOutput.grpid_should_not_be_0 id, dev := some subsys, notices := [] }
    else
      inject_scan subsys id grpid state (nvme_subsys_ana_states K) 0

/-! ## `nvme_subsys_register_ns` -/

/-- The controller callback `nvme_register_namespace(n, ns, errp)`, which lives
outside this file: `none` when it returns 0, `some e` when it returns non-zero
having set the error `e`. -/
abbrev RegisterNamespaceCb := NvmeCtrl → NvmeNamespace → Option Error

/-- The loop `for (i = 0; i < ARRAY_SIZE(ctrls); i++)` of
`nvme_subsys_register_ns` over the cells still to visit: the controllers the
callback was invoked on, in order, and the error that ended the loop early. -/
def register_ns_loop (cb : RegisterNamespaceCb) (ns : NvmeNamespace) :
    List (Option NvmeCtrl) → List NvmeCtrl × Option Error
  | [] => ([], none)
  | none :: rest => register_ns_loop cb ns rest
  | some n :: rest =>
    match cb n ns with
    | some e => ([n], some e)
    | none => ((n :: (register_ns_loop cb ns rest).1), (register_ns_loop cb ns rest).2)

/-- The result of `nvme_subsys_register_ns`: the returned `int`, the error
set through `errp`, the subsystem and the namespace object afterwards, and the
callback invocations made. -/
structure RegisterNsResult where
  ret : Int
  errp : Option Error
  subsys : NvmeSubsystem
  ns : NvmeNamespace
  calls : List NvmeCtrl
deriving DecidableEq

def nvme_subsys_register_ns (cb : RegisterNamespaceCb) (subsys : NvmeSubsystem)
    (ns : NvmeNamespace) : Option RegisterNsResult := do
  let slot ← subsys.namespaces.read? (nvme_nsid ns)
  if slot.isSome then
    some { ret := -1,
           errp := some (Error.ns_already_registered (nvme_nsid ns) subsys.parent_obj_id),
           subsys := subsys, ns := ns, calls := [] }
  else do
    let namespaces ← subsys.namespaces.write? (nvme_nsid ns) (some ns.addr)
    let subsys := { subsys with namespaces := namespaces }
    let l := register_ns_loop cb ns subsys.ctrls.toList
    match l.2 with
    | some e => some { ret := -1, errp := some e, subsys := subsys, ns := ns, calls := l.1 }
    | none =>
      if ns.params_anagrpid ≠ 0 then do
        let a ← subsys.ana.read? ns.params_anagrpid
        let ana ← subsys.ana.write? ns.params_anagrpid
          (nvme_subsys_ana_register_ns a (nvme_nsid ns))
        some { ret := 0, errp := none, subsys := { subsys with ana := ana },
               ns := { ns with ana := some ns.params_anagrpid }, calls := l.1 }
      else
        some { ret := 0, errp := none, subsys := subsys, ns := ns, calls := l.1 }

/-! ## `nvme_subsys_setup` -/

/-- The C library call `snprintf(buf, size, fmt, ...)` for a format whose
expansion is `out`: the bytes it stores from `buf[0]` on, which are the first
`size - 1` bytes of `out` and a NUL (nothing when `size` is 0). -/
def snprintf (size : Nat) (out : CString) : List Nat :=
  if size = 0 then [] else out.take (size - 1) ++ [0]

/-- Stores the bytes `bs` at `buf[i]`, `buf[i+1]`, ... -/
def store_bytes : CArray Nat 256 → List Nat → Nat → Option (CArray Nat 256)
  | buf, [], _ => some buf
  | buf, b :: bs, i => do
    let buf ← buf.write? i b
    store_bytes buf bs (i + 1)

/-- The body of the loop of `nvme_subsys_setup` for the values of `anagrpid`
still to visit. -/
def setup_loop (K : NvmeAnaStateConsts) : List Nat → CArray NvmeAna 33 →
    Option (CArray NvmeAna 33)
  | [], ana => some ana
  | anagrpid :: rest, ana => do
    let a ← ana.read? anagrpid
    let ana ← ana.write? anagrpid { a with grpid := anagrpid }
    let a ← ana.read? anagrpid
    let ana ← ana.write? anagrpid { a with state := K.NVME_ANA_STATE_OPTIMIZED % 256 }
    setup_loop K rest ana

/-- The values `anagrpid = 1; anagrpid < ARRAY_SIZE(subsys->ana); anagrpid++`
runs through. -/
def setup_anagrpids : List Nat := List.range' 1 (33 - 1)

def nvme_subsys_setup (K : NvmeAnaStateConsts) (subsys : NvmeSubsystem) :
    Option NvmeSubsystem := do
  let subnqn ← store_bytes subsys.subnqn
    (snprintf 256 (cstr "nqn.2019-08.org.qemu:" ++ subsys.parent_obj_id)) 0
  let ana ← setup_loop K setup_anagrpids subsys.ana
  some { subsys with subnqn := subnqn, ana := ana }

def nvme_subsys_realize (K : NvmeAnaStateConsts) (dev : NvmeSubsystem) :
    Option NvmeSubsystem :=
  nvme_subsys_setup K dev

/-- Modelled from the spec: the subsystem object as the framework constructs
it, before setup runs (the object allocation is not among the sources): the
external identifier and the `ana` option are set, both slot tables are empty,
every membership set is empty and all other bytes are zero. -/
def nvme_subsys_new (id : CString) (ana : Bool) : NvmeSubsystem :=
  { parent_obj_id := id
    subnqn := Mathlib.Vector.replicate 256 0
    ctrls := Mathlib.Vector.replicate 32 none
    namespaces := Mathlib.Vector.replicate 32 none
    ana := Mathlib.Vector.replicate 33 { grpid := 0, state := 0, nsids := 0 }
    ana_change_count := 0
    params_ana := ana }

/-- The subsystem states reachable from setup: the framework constructs a
subsystem and realizes it once; then controllers and namespaces register and
the monitor command is issued, in any order, with any arguments for which the
call is defined. -/
inductive Reachable (K : NvmeAnaStateConsts) : NvmeSubsystem → Prop where
  | realize (id : CString) (ana : Bool) (s : NvmeSubsystem) :
      nvme_subsys_realize K (nvme_subsys_new id ana) = some s → Reachable K s
  | register_ctrl (s : NvmeSubsystem) (n : NvmeCtrl) (r : RegisterCtrlResult) :
      Reachable K s → nvme_subsys_register_ctrl s n = some r → Reachable K r.subsys
  | register_ns (s : NvmeSubsystem) (cb : RegisterNamespaceCb) (ns : NvmeNamespace)
      (r : RegisterNsResult) :
      Reachable K s → nvme_subsys_register_ns cb s ns = some r → Reachable K r.subsys
  | inject (s : NvmeSubsystem) (id : CString) (grpid : Int) (state : CString)
      (r : HmpResult) (t : NvmeSubsystem) :
      Reachable K s → hmp_nvme_ana_inject_state K (some s) id grpid state = some r →
      r.dev = some t → Reachable K t

/-! ## Auxiliary definitions for the statements -/

/-- The subsystem once the namespace is stored in its slot. -/
def with_namespace (s : NvmeSubsystem) (ns : NvmeNamespace) (h : nvme_nsid ns < 32) :
    NvmeSubsystem :=
  { s with namespaces := s.namespaces.set ⟨nvme_nsid ns, h⟩ (some ns.addr) }

/-- Every namespace id in some group's membership set has its namespace slot
occupied. -/
def MembersRegistered (s : NvmeSubsystem) : Prop :=
  ∀ (g : Fin 33) (nsid : Nat), (s.ana.get g).nsids.testBit nsid = true →
    ∃ h : nsid < 32, s.namespaces.get ⟨nsid, h⟩ ≠ none

/-- The enumerators number the four states 1..4, in some order (pairwise
distinct values in 1..4): the state-name table then has exactly the five
cells the source writes out, "" and the four names.  The values themselves
are declared in `include/block/nvme.h`, which is not among the sources. -/
def AnaStatesNumbered (K : NvmeAnaStateConsts) : Prop :=
  (1 ≤ K.NVME_ANA_STATE_OPTIMIZED ∧ K.NVME_ANA_STATE_OPTIMIZED ≤ 4) ∧
  (1 ≤ K.NVME_ANA_STATE_NON_OPTIMIZED ∧ K.NVME_ANA_STATE_NON_OPTIMIZED ≤ 4) ∧
  (1 ≤ K.NVME_ANA_STATE_INACCESSIBLE ∧ K.NVME_ANA_STATE_INACCESSIBLE ≤ 4) ∧
  (1 ≤ K.NVME_ANA_STATE_CHANGE ∧ K.NVME_ANA_STATE_CHANGE ≤ 4) ∧
  K.NVME_ANA_STATE_OPTIMIZED ≠ K.NVME_ANA_STATE_NON_OPTIMIZED ∧
  K.NVME_ANA_STATE_OPTIMIZED ≠ K.NVME_ANA_STATE_INACCESSIBLE ∧
  K.NVME_ANA_STATE_OPTIMIZED ≠ K.NVME_ANA_STATE_CHANGE ∧
  K.NVME_ANA_STATE_NON_OPTIMIZED ≠ K.NVME_ANA_STATE_INACCESSIBLE ∧
  K.NVME_ANA_STATE_NON_OPTIMIZED ≠ K.NVME_ANA_STATE_CHANGE ∧
  K.NVME_ANA_STATE_INACCESSIBLE ≠ K.NVME_ANA_STATE_CHANGE

instance (K : NvmeAnaStateConsts) : Decidable (AnaStatesNumbered K) := by
  unfold AnaStatesNumbered
  infer_instance

/-- No namespace id is in the membership sets of two different groups. -/
def MembershipUnique (s : NvmeSubsystem) : Prop :=
  ∀ (g1 g2 : Fin 33) (nsid : Nat), (s.ana.get g1).nsids.testBit nsid = true →
    (s.ana.get g2).nsids.testBit nsid = true → g1 = g2

/-- The subsystem states that registrations and monitor commands lead to from
the state `s`, in any order, with any arguments for which the call is
defined. -/
inductive Steps (K : NvmeAnaStateConsts) (s : NvmeSubsystem) : NvmeSubsystem → Prop where
  | refl : Steps K s s
  | register_ctrl (t : NvmeSubsystem) (n : NvmeCtrl) (r : RegisterCtrlResult) :
      Steps K s t → nvme_subsys_register_ctrl t n = some r → Steps K s r.subsys
  | register_ns (t : NvmeSubsystem) (cb : RegisterNamespaceCb) (ns : NvmeNamespace)
      (r : RegisterNsResult) :
      Steps K s t → nvme_subsys_register_ns cb t ns = some r → Steps K s r.subsys
  | inject (t : NvmeSubsystem) (id : CString) (grpid : Int) (state : CString)
      (r : HmpResult) (u : NvmeSubsystem) :
      Steps K s t → hmp_nvme_ana_inject_state K (some t) id grpid state = some r →
      r.dev = some u → Steps K s u

/-- The namespace slot `nsid` is occupied and `nsid` is in no group's
membership set. -/
def SlotSealed (nsid : Nat) (t : NvmeSubsystem) : Prop :=
  (∃ h : nsid < 32, t.namespaces.get ⟨nsid, h⟩ ≠ none) ∧
  ∀ g : Fin 33, (t.ana.get g).nsids.testBit nsid = false

/-! ## Concrete states for the examples -/

/-- One possible numbering of the `NVME_ANA_STATE_*` enumerators, used to build
the concrete inputs of the examples: the four states numbered 1..4 in the
order of the state-name table.  The values the program has are declared in
`include/block/nvme.h`, which is not among the sources, and the spec names the
states without numbering them; with another numbering (the NVMe one has
Change = 0Fh) the state-name table has NULL cells, see `inject_with_gap`. -/
def example_consts : NvmeAnaStateConsts :=
  { NVME_ANA_STATE_OPTIMIZED := 1, NVME_ANA_STATE_NON_OPTIMIZED := 2,
    NVME_ANA_STATE_INACCESSIBLE := 3, NVME_ANA_STATE_CHANGE := 4 }

set_option maxRecDepth 100000 in
/-- The subsystem "sub0" right after setup (with `example_consts`). -/
def sub0 : NvmeSubsystem :=
  { parent_obj_id := cstr "sub0"
    subnqn := ⟨cstr "nqn.2019-08.org.qemu:sub0" ++ List.replicate 231 0, by decide⟩
    ctrls := Mathlib.Vector.replicate 32 none
    namespaces := Mathlib.Vector.replicate 32 none
    ana := ⟨{ grpid := 0, state := 0, nsids := 0 } ::
      (List.range' 1 32).map (fun g => { grpid := g, state := 1, nsids := 0 }), by decide⟩
    ana_change_count := 0
    params_ana := true }

/-- The subsystem "sub0" with controllers 100 and 101 in slots 0 and 1. -/
def sub0_two_ctrls : NvmeSubsystem :=
  { sub0 with ctrls := ⟨some 100 :: some 101 :: List.replicate 30 none, by decide⟩ }

/-- The subsystem `sub0_two_ctrls` with the namespace at address 7 in slot 5. -/
def sub0_ns5 : NvmeSubsystem :=
  { sub0_two_ctrls with
    namespaces := ⟨List.replicate 5 none ++ some 7 :: List.replicate 26 none, by decide⟩ }

/-- A namespace object with id 5 declaring ANA group 3. -/
def example_ns : NvmeNamespace :=
  { addr := 7, params_nsid := 5, params_anagrpid := 3, ana := none }

/-- A callback that fails on controller 101 only. -/
def example_cb : RegisterNamespaceCb :=
  fun n _ => if n = 101 then some (Error.ctrl_failure 1) else none

/-- The subsystem `sub0_two_ctrls` after the namespace `example_ns` (id 5,
group 3) registered: slot 5 holds it and group 3 has bit 5 set. -/
def sub0_grouped : NvmeSubsystem :=
  { sub0_ns5 with
    ana := sub0_ns5.ana.set ⟨3, by decide⟩ { grpid := 3, state := 1, nsids := 32 } }

/-- The subsystem `sub0_grouped` with group 3 in state 4. -/
def sub0_changed : NvmeSubsystem :=
  { sub0_grouped with
    ana := sub0_grouped.ana.set ⟨3, by decide⟩ { grpid := 3, state := 4, nsids := 32 } }

/-! ## Array and scan lemmas, `nvme_subsys_register_ctrl` -/

theorem CArray.read?_eq_getElem? {α : Type} {n : Nat} (a : CArray α n) (i : Nat) :
    a.read? i = a.toList[i]? := by
  obtain ⟨l, hl⟩ := a
  unfold CArray.read?
  by_cases h : i < n
  · simp [h, Mathlib.Vector.get, Mathlib.Vector.toList, hl]
  · simp [h, Mathlib.Vector.toList, hl]; omega

theorem CArray.read?_of_lt {α : Type} {n : Nat} (a : CArray α n) {i : Nat} (h : i < n) :
    a.read? i = some (a.get ⟨i, h⟩) := by
  simp [CArray.read?, h]

theorem CArray.write?_of_lt {α : Type} {n : Nat} (a : CArray α n) {i : Nat} (h : i < n)
    (x : α) : a.write? i x = some (a.set ⟨i, h⟩ x) := by
  simp [CArray.write?, h]

theorem CArray.read?_eq_none {α : Type} {n : Nat} (a : CArray α n) {i : Nat} (h : n ≤ i) :
    a.read? i = none := by
  simp [CArray.read?, Nat.not_lt.mpr h]

theorem CArray.write?_eq_none {α : Type} {n : Nat} (a : CArray α n) {i : Nat} (h : n ≤ i)
    (x : α) : a.write? i x = none := by
  simp [CArray.write?, Nat.not_lt.mpr h]

theorem CArray.get_eq_getElem {α : Type} {n : Nat} (a : CArray α n) (i : Fin n) :
    a.toList[i.val]? = some (a.get i) := by
  rw [← CArray.read?_eq_getElem?, CArray.read?_of_lt a i.isLt]

/-- What the scan of `nvme_subsys_register_ctrl` returns: the cells before the
result are occupied and the result, when inside the scanned range, is free. -/
theorem register_ctrl_scan_spec (l : List (Option NvmeCtrl)) (c : Nat) :
    c ≤ register_ctrl_scan l c ∧ register_ctrl_scan l c ≤ c + l.length ∧
    (∀ j, j < register_ctrl_scan l c - c → ∃ m, l[j]? = some (some m)) ∧
    (register_ctrl_scan l c < c + l.length → l[register_ctrl_scan l c - c]? = some none) := by
  induction l generalizing c with
  | nil => simp [register_ctrl_scan]
  | cons x rest ih =>
    cases x with
    | none => simp [register_ctrl_scan]
    | some m =>
      simp only [register_ctrl_scan]
      obtain ⟨h1, h2, h3, h4⟩ := ih (c + 1)
      refine ⟨by omega, by simp only [List.length_cons]; omega, ?_, ?_⟩
      · intro j hj
        cases j with
        | zero => exact ⟨m, by simp⟩
        | succ k =>
          simp only [List.getElem?_cons_succ]
          exact h3 k (by omega)
      · intro hlt
        have h := h4 (by simp only [List.length_cons] at hlt; omega)
        have e : register_ctrl_scan rest (c + 1) - c = (register_ctrl_scan rest (c + 1) - (c + 1)) + 1 := by
          omega
        rw [e, List.getElem?_cons_succ]
        exact h

theorem register_ctrl_of_full (s : NvmeSubsystem) (n : NvmeCtrl)
    (h : register_ctrl_scan s.ctrls.toList 0 = 32) :
    nvme_subsys_register_ctrl s n =
      some { ret := -1, errp := some Error.no_free_cntlid, subsys := s } := by
  simp only [nvme_subsys_register_ctrl, h, if_true]

theorem register_ctrl_of_free (s : NvmeSubsystem) (n : NvmeCtrl)
    (h : register_ctrl_scan s.ctrls.toList 0 < 32) :
    nvme_subsys_register_ctrl s n =
      some { ret := (register_ctrl_scan s.ctrls.toList 0 : Int), errp := none,
             subsys := { s with ctrls := s.ctrls.set ⟨_, h⟩ (some n) } } := by
  have hne : register_ctrl_scan s.ctrls.toList 0 ≠ 32 := by omega
  simp only [nvme_subsys_register_ctrl, hne, if_false, CArray.write?_of_lt _ h,
    Option.bind_eq_bind, Option.some_bind]

/-- The scan started at 0 over the whole table: the result is at most 32, the
slots before it are occupied, and it is a free slot unless it is 32. -/
theorem register_ctrl_scan_table (s : NvmeSubsystem) :
    register_ctrl_scan s.ctrls.toList 0 ≤ 32 ∧
    (∀ j : Fin 32, j.val < register_ctrl_scan s.ctrls.toList 0 → s.ctrls.get j ≠ none) ∧
    (∀ h : register_ctrl_scan s.ctrls.toList 0 < 32, s.ctrls.get ⟨_, h⟩ = none) := by
  obtain ⟨_, h2, h3, h4⟩ := register_ctrl_scan_spec s.ctrls.toList 0
  have hlen : s.ctrls.toList.length = 32 := s.ctrls.2
  rw [hlen] at h2 h4
  simp only [Nat.sub_zero, Nat.zero_add] at h2 h3 h4
  refine ⟨h2, ?_, ?_⟩
  · intro j hj hnone
    obtain ⟨m, hm⟩ := h3 j.val hj
    rw [CArray.get_eq_getElem, hnone] at hm
    cases hm
  · intro h
    have := h4 h
    rw [CArray.get_eq_getElem s.ctrls ⟨_, h⟩] at this
    exact Option.some.inj this

theorem register_ctrl_cases (s : NvmeSubsystem) (n : NvmeCtrl) :
    ∃ r, nvme_subsys_register_ctrl s n = some r ∧
      ((∃ i : Fin 32, s.ctrls.get i = none ∧ (∀ j : Fin 32, j < i → s.ctrls.get j ≠ none) ∧
          r.ret = (i.val : Int) ∧ r.errp = none ∧
          r.subsys.ctrls.get i = some n ∧
          (∀ j : Fin 32, j ≠ i → r.subsys.ctrls.get j = s.ctrls.get j) ∧
          r.subsys = { s with ctrls := r.subsys.ctrls })
       ∨ ((∀ i : Fin 32, s.ctrls.get i ≠ none) ∧ r.ret = -1 ∧
          r.errp = some Error.no_free_cntlid ∧ r.subsys.ctrls = s.ctrls ∧ r.subsys = s)) := by
  obtain ⟨h2, h3, h4⟩ := register_ctrl_scan_table s
  by_cases hfull : register_ctrl_scan s.ctrls.toList 0 = 32
  · refine ⟨_, register_ctrl_of_full s n hfull, Or.inr ⟨?_, rfl, rfl, rfl, rfl⟩⟩
    intro i
    exact h3 i (by rw [hfull]; exact i.isLt)
  · have hlt : register_ctrl_scan s.ctrls.toList 0 < 32 := by omega
    refine ⟨_, register_ctrl_of_free s n hlt, Or.inl ⟨⟨_, hlt⟩, h4 hlt, ?_, rfl, rfl, ?_, ?_, rfl⟩⟩
    · intro j hj
      exact h3 j hj
    · exact Mathlib.Vector.get_set_same _ _ _
    · intro j hj
      exact Mathlib.Vector.get_set_of_ne (Ne.symm hj) _

/-- C1: `nvme_subsys_register_ctrl` always returns.  Either some slot is free:
then it returns the smallest index i in 0..31 whose slot is free, sets no
error, stores the controller in slot i and leaves every other slot and every
other field of the subsystem unchanged.  Or all 32 slots are occupied: then it
returns -1 with the error set and the subsystem, controller table included,
is unchanged. -/
theorem register_ctrl_first_free (s : NvmeSubsystem) (n : NvmeCtrl) :
    ∃ r, nvme_subsys_register_ctrl s n = some r ∧
      ((∃ i : Fin 32, s.ctrls.get i = none ∧ (∀ j : Fin 32, j < i → s.ctrls.get j ≠ none) ∧
          r.ret = (i.val : Int) ∧ r.errp = none ∧
          r.subsys.ctrls.get i = some n ∧
          (∀ j : Fin 32, j ≠ i → r.subsys.ctrls.get j = s.ctrls.get j) ∧
          r.subsys = { s with ctrls := r.subsys.ctrls })
       ∨ ((∀ i : Fin 32, s.ctrls.get i ≠ none) ∧ r.ret = -1 ∧
          r.errp = some Error.no_free_cntlid ∧ r.subsys.ctrls = s.ctrls ∧ r.subsys = s)) :=
  register_ctrl_cases s n

theorem register_ctrls_cons (s : NvmeSubsystem) (n : NvmeCtrl) (rest : List NvmeCtrl) :
    register_ctrls s (n :: rest) =
      (nvme_subsys_register_ctrl s n).bind (fun r =>
        (register_ctrls r.subsys rest).bind (fun p => some (r.ret :: p.1, p.2))) := rfl

theorem register_ctrl_scan_filled (pre : List NvmeCtrl) (k c : Nat) :
    register_ctrl_scan (pre.map some ++ List.replicate k none) c = c + pre.length := by
  induction pre generalizing c with
  | nil => cases k <;> simp [register_ctrl_scan, List.replicate]
  | cons x rest ih =>
    show register_ctrl_scan (some x :: (rest.map some ++ List.replicate k none)) c = _
    rw [register_ctrl_scan, ih, List.length_cons]
    omega

theorem CArray.toList_set {α : Type} {n : Nat} (a : CArray α n) (i : Fin n) (x : α) :
    (a.set i x).toList = a.toList.set i.val x :=
  Mathlib.Vector.toList_set a i x

theorem set_filled (pre : List NvmeCtrl) (k : Nat) (n : NvmeCtrl) :
    (pre.map some ++ List.replicate (k + 1) none).set pre.length (some n) =
      (pre ++ [n]).map some ++ List.replicate k none := by
  induction pre with
  | nil => simp [List.replicate]
  | cons x rest ih => simpa using ih

/-- Registering into a table whose first slots hold `pre` and whose other
slots are free takes the slot after `pre`. -/
theorem register_ctrl_filled (s : NvmeSubsystem) (n : NvmeCtrl) (pre : List NvmeCtrl) (k : Nat)
    (h : s.ctrls.toList = pre.map some ++ List.replicate (k + 1) none) :
    ∃ r, nvme_subsys_register_ctrl s n = some r ∧ r.ret = (pre.length : Int) ∧
      r.subsys.ctrls.toList = (pre ++ [n]).map some ++ List.replicate k none := by
  have hlen : s.ctrls.toList.length = 32 := s.ctrls.2
  have hscan : register_ctrl_scan s.ctrls.toList 0 = pre.length := by
    rw [h, register_ctrl_scan_filled]; omega
  have hlt : register_ctrl_scan s.ctrls.toList 0 < 32 := by
    rw [hscan]; rw [h] at hlen; simp at hlen; omega
  refine ⟨_, register_ctrl_of_free s n hlt, ?_, ?_⟩
  · simp only [hscan]
  · show (s.ctrls.set ⟨_, hlt⟩ (some n)).toList = _
    rw [CArray.toList_set]
    simp only []
    rw [hscan, h, set_filled]

theorem register_ctrls_filled (cs : List NvmeCtrl) :
    ∀ (s : NvmeSubsystem) (pre : List NvmeCtrl) (k : Nat),
      s.ctrls.toList = pre.map some ++ List.replicate (k + cs.length) none →
      ∃ t, register_ctrls s cs =
          some ((List.range' pre.length cs.length).map Int.ofNat, t) ∧
        t.ctrls.toList = (pre ++ cs).map some ++ List.replicate k none := by
  induction cs with
  | nil =>
    intro s pre k h
    exact ⟨s, by simp [register_ctrls], by simpa using h⟩
  | cons c rest ih =>
    intro s pre k h
    obtain ⟨r, hr, hret, hctrls⟩ := register_ctrl_filled s c pre (k + rest.length)
      (by rw [h]; simp only [List.length_cons]; rfl)
    obtain ⟨t, ht, htl⟩ := ih r.subsys (pre ++ [c]) k hctrls
    refine ⟨t, ?_, by simpa using htl⟩
    rw [register_ctrls_cons, hr, Option.some_bind, ht, Option.some_bind, hret]
    simp [List.range']

theorem register_ctrls_append (cs ds : List NvmeCtrl) :
    ∀ s : NvmeSubsystem, register_ctrls s (cs ++ ds) =
      (register_ctrls s cs).bind (fun p =>
        (register_ctrls p.2 ds).bind (fun q => some (p.1 ++ q.1, q.2))) := by
  induction cs with
  | nil => intro s; simp [register_ctrls]
  | cons c rest ih =>
    intro s
    rw [List.cons_append, register_ctrls_cons, register_ctrls_cons]
    cases nvme_subsys_register_ctrl s c with
    | none => rfl
    | some r =>
      rw [Option.some_bind, Option.some_bind, ih]
      cases register_ctrls r.subsys rest with
      | none => rfl
      | some p =>
        rw [Option.some_bind, Option.some_bind, Option.some_bind]
        cases register_ctrls p.2 ds with
        | none => rfl
        | some q => rfl

/-- A registration never frees a slot, and a returned index is a slot that
was free before and is occupied afterwards. -/
theorem register_ctrl_slots (s : NvmeSubsystem) (n : NvmeCtrl) (r : RegisterCtrlResult)
    (h : nvme_subsys_register_ctrl s n = some r) :
    (∀ i : Fin 32, s.ctrls.get i ≠ none → r.subsys.ctrls.get i ≠ none) ∧
    (r.ret = -1 ∨ ∃ i : Fin 32, r.ret = (i.val : Int) ∧ s.ctrls.get i = none ∧
      r.subsys.ctrls.get i ≠ none) := by
  obtain ⟨r', hr', hcase⟩ := register_ctrl_cases s n
  rw [h] at hr'
  cases hr'
  rcases hcase with ⟨i, hfree, _, hret, _, hset, hother, _⟩ | ⟨_, hret, _, hsame, _⟩
  · refine ⟨?_, Or.inr ⟨i, hret, hfree, by rw [hset]; simp⟩⟩
    intro j hj
    by_cases hji : j = i
    · subst hji; exact absurd hfree hj
    · rw [hother j hji]; exact hj
  · exact ⟨fun i hi => by rw [hsame]; exact hi, Or.inl hret⟩

theorem register_ctrls_slots (cs : List NvmeCtrl) :
    ∀ (s : NvmeSubsystem), ∃ rets t, register_ctrls s cs = some (rets, t) ∧
      rets.length = cs.length ∧
      (∀ i : Fin 32, s.ctrls.get i ≠ none → t.ctrls.get i ≠ none) ∧
      (∀ x ∈ rets, x = -1 ∨ ∃ i : Fin 32, x = (i.val : Int) ∧ s.ctrls.get i = none ∧
        t.ctrls.get i ≠ none) ∧
      (rets.filter (fun x => decide (0 ≤ x))).Nodup := by
  induction cs with
  | nil => intro s; exact ⟨[], s, rfl, rfl, fun _ h => h, by simp, by simp⟩
  | cons c rest ih =>
    intro s
    obtain ⟨r, hr, _⟩ := register_ctrl_cases s c
    obtain ⟨hmono, hret⟩ := register_ctrl_slots s c r hr
    obtain ⟨rets, t, ht, hlen, hmono2, hrets, hnd⟩ := ih r.subsys
    refine ⟨r.ret :: rets, t, ?_, by simp [hlen], fun i hi => hmono2 i (hmono i hi), ?_, ?_⟩
    · rw [register_ctrls_cons, hr, Option.some_bind, ht, Option.some_bind]
    · intro x hx
      rcases List.mem_cons.mp hx with hx | hx
      · subst hx
        rcases hret with h | ⟨i, h1, h2, h3⟩
        · exact Or.inl h
        · exact Or.inr ⟨i, h1, h2, hmono2 i h3⟩
      · rcases hrets x hx with h | ⟨i, h1, h2, h3⟩
        · exact Or.inl h
        · refine Or.inr ⟨i, h1, ?_, h3⟩
          by_contra hocc
          exact hmono i hocc h2
    · rw [List.filter_cons]
      split
      · rename_i hpos
        refine List.nodup_cons.mpr ⟨?_, hnd⟩
        intro hmem
        have hmem2 := (List.mem_filter.mp hmem).1
        rcases hret with h | ⟨i, h1, _, h3⟩
        · rw [h] at hpos; simp at hpos
        · rcases hrets _ hmem2 with h | ⟨j, h4, h5, _⟩
          · rw [h] at hpos; simp at hpos
          · have : i = j := by
              apply Fin.ext
              have := h1.symm.trans h4
              exact_mod_cast this
            subst this
            exact h3 h5
      · exact hnd

theorem CArray.toList_eq_replicate {α : Type} {n : Nat} (a : CArray α n) (x : α)
    (h : ∀ i : Fin n, a.get i = x) : a.toList = List.replicate n x := by
  refine List.eq_replicate_iff.mpr ⟨a.2, ?_⟩
  intro b hb
  obtain ⟨i, hi, rfl⟩ := List.getElem_of_mem hb
  have hi2 : i < n := by rw [← a.2]; exact hi
  have := CArray.get_eq_getElem a ⟨i, hi2⟩
  rw [List.getElem?_eq_getElem hi] at this
  rw [← h ⟨i, hi2⟩]
  exact Option.some.inj this

/-- C2: starting from an empty controller table, 33 registrations return
0, 1, ..., 31 in this order and then -1, the failing 33rd call leaving the
subsystem as the 32nd left it (the table holding the first 32 controllers in
call order); and in any sequence of registrations from any table every call
returns -1 or an index in 0..31, and the indices returned by the successful
calls are pairwise distinct. -/
theorem register_ctrl_sequence (s : NvmeSubsystem) (cs : List NvmeCtrl) :
    ∃ rets t, register_ctrls s cs = some (rets, t) ∧ rets.length = cs.length ∧
      (∀ x ∈ rets, x = -1 ∨ (0 ≤ x ∧ x < 32)) ∧
      (rets.filter (fun x => decide (0 ≤ x))).Nodup ∧
      ((∀ i : Fin 32, s.ctrls.get i = none) → cs.length = 33 →
        rets = (List.range 32).map Int.ofNat ++ [-1] ∧
        t.ctrls.toList = (cs.take 32).map some ∧
        register_ctrls s (cs.take 32) = some ((List.range 32).map Int.ofNat, t)) := by
  obtain ⟨rets, t, hrun, hlen, _, hrets, hnd⟩ := register_ctrls_slots cs s
  refine ⟨rets, t, hrun, hlen, ?_, hnd, ?_⟩
  · intro x hx
    rcases hrets x hx with h | ⟨i, h, _, _⟩
    · exact Or.inl h
    · refine Or.inr ⟨by rw [h]; exact Int.ofNat_nonneg _, ?_⟩
      rw [h]
      exact_mod_cast i.isLt
  · intro hempty hcs
    have htab : s.ctrls.toList = List.map some [] ++ List.replicate (0 + (cs.take 32).length) none := by
      rw [CArray.toList_eq_replicate s.ctrls none hempty]
      simp [hcs]
    obtain ⟨t32, h32, htab32⟩ := register_ctrls_filled (cs.take 32) s [] 0 htab
    have hlen32 : (cs.take 32).length = 32 := by simp [hcs]
    simp only [List.length_nil, List.nil_append, List.replicate_zero, List.append_nil, hlen32]
      at h32 htab32
    obtain ⟨c, hc⟩ : ∃ c, cs.drop 32 = [c] := by
      have h1 : (cs.drop 32).length = 1 := by simp [hcs]
      match hd : cs.drop 32, h1 with
      | [c], _ => exact ⟨c, rfl⟩
    have hscan : register_ctrl_scan t32.ctrls.toList 0 = 32 := by
      have := register_ctrl_scan_filled (cs.take 32) 0 0
      rw [List.replicate_zero, List.append_nil, ← htab32, hlen32] at this
      exact this
    have hlast := register_ctrl_of_full t32 c hscan
    have hall := register_ctrls_append (cs.take 32) (cs.drop 32) s
    rw [List.take_append_drop, hrun, h32, Option.some_bind, hc, register_ctrls_cons, hlast] at hall
    simp only [Option.some_bind, register_ctrls, Option.some.injEq, Prod.mk.injEq] at hall
    obtain ⟨e1, e2⟩ := hall
    subst e2
    exact ⟨by rw [e1, List.range_eq_range'], htab32, by rw [h32, List.range_eq_range']⟩

/-- C2 at a concrete input: 33 controllers registered into an empty table. -/
theorem register_ctrl_sequence_witness :
    ∃ rets t, register_ctrls (nvme_subsys_new (cstr "sub0") true) (List.range' 100 33) =
        some (rets, t) ∧
      rets = (List.range 32).map Int.ofNat ++ [-1] ∧
      t.ctrls.toList = ((List.range' 100 33).take 32).map some := by
  obtain ⟨rets, t, h, _, _, _, hseq⟩ :=
    register_ctrl_sequence (nvme_subsys_new (cstr "sub0") true) (List.range' 100 33)
  obtain ⟨h1, h2, _⟩ := hseq (fun i => Mathlib.Vector.get_replicate _ i) (by decide)
  exact ⟨rets, t, h, h1, h2⟩

/-! ## `nvme_subsys_register_ns` -/

theorem register_ns_of_occupied (cb : RegisterNamespaceCb) (s : NvmeSubsystem)
    (ns : NvmeNamespace) (p : Nat)
    (h : s.namespaces.read? (nvme_nsid ns) = some (some p)) :
    nvme_subsys_register_ns cb s ns =
      some { ret := -1,
             errp := some (Error.ns_already_registered (nvme_nsid ns) s.parent_obj_id),
             subsys := s, ns := ns, calls := [] } := by
  simp [nvme_subsys_register_ns, h]

theorem register_ns_of_oob (cb : RegisterNamespaceCb) (s : NvmeSubsystem)
    (ns : NvmeNamespace) (h : 32 ≤ nvme_nsid ns) :
    nvme_subsys_register_ns cb s ns = none := by
  simp [nvme_subsys_register_ns, CArray.read?_eq_none _ h]

theorem register_ns_of_cb_failure (cb : RegisterNamespaceCb) (s : NvmeSubsystem)
    (ns : NvmeNamespace) (h : nvme_nsid ns < 32)
    (hfree : s.namespaces.get ⟨nvme_nsid ns, h⟩ = none) (e : Error)
    (hl : (register_ns_loop cb ns s.ctrls.toList).2 = some e) :
    nvme_subsys_register_ns cb s ns =
      some { ret := -1, errp := some e, subsys := with_namespace s ns h, ns := ns,
             calls := (register_ns_loop cb ns s.ctrls.toList).1 } := by
  simp [nvme_subsys_register_ns, CArray.read?_of_lt _ h, hfree, CArray.write?_of_lt _ h, hl,
    with_namespace]

theorem register_ns_of_ungrouped (cb : RegisterNamespaceCb) (s : NvmeSubsystem)
    (ns : NvmeNamespace) (h : nvme_nsid ns < 32)
    (hfree : s.namespaces.get ⟨nvme_nsid ns, h⟩ = none)
    (hl : (register_ns_loop cb ns s.ctrls.toList).2 = none)
    (hg : ns.params_anagrpid = 0) :
    nvme_subsys_register_ns cb s ns =
      some { ret := 0, errp := none, subsys := with_namespace s ns h, ns := ns,
             calls := (register_ns_loop cb ns s.ctrls.toList).1 } := by
  simp [nvme_subsys_register_ns, CArray.read?_of_lt _ h, hfree, CArray.write?_of_lt _ h, hl,
    with_namespace, hg]

theorem register_ns_of_grouped (cb : RegisterNamespaceCb) (s : NvmeSubsystem)
    (ns : NvmeNamespace) (h : nvme_nsid ns < 32)
    (hfree : s.namespaces.get ⟨nvme_nsid ns, h⟩ = none)
    (hl : (register_ns_loop cb ns s.ctrls.toList).2 = none)
    (hg : ns.params_anagrpid ≠ 0) (hg2 : ns.params_anagrpid < 33) :
    nvme_subsys_register_ns cb s ns =
      some { ret := 0, errp := none,
             subsys := { with_namespace s ns h with
               ana := s.ana.set ⟨ns.params_anagrpid, hg2⟩
                 (nvme_subsys_ana_register_ns (s.ana.get ⟨ns.params_anagrpid, hg2⟩)
                   (nvme_nsid ns)) },
             ns := { ns with ana := some ns.params_anagrpid },
             calls := (register_ns_loop cb ns s.ctrls.toList).1 } := by
  simp [nvme_subsys_register_ns, CArray.read?_of_lt _ h, hfree, CArray.write?_of_lt _ h, hl,
    with_namespace, hg, CArray.read?_of_lt _ hg2, CArray.write?_of_lt _ hg2]

theorem register_ns_of_oob_group (cb : RegisterNamespaceCb) (s : NvmeSubsystem)
    (ns : NvmeNamespace) (h : nvme_nsid ns < 32)
    (hfree : s.namespaces.get ⟨nvme_nsid ns, h⟩ = none)
    (hl : (register_ns_loop cb ns s.ctrls.toList).2 = none)
    (hg2 : 33 ≤ ns.params_anagrpid) :
    nvme_subsys_register_ns cb s ns = none := by
  have hg : ns.params_anagrpid ≠ 0 := by omega
  simp [nvme_subsys_register_ns, CArray.read?_of_lt _ h, hfree, CArray.write?_of_lt _ h, hl,
    hg, CArray.read?_eq_none _ hg2]

/-- With no failing callback among the occupied cells, the loop invokes the
callback on every occupied cell in order. -/
theorem register_ns_loop_all (cb : RegisterNamespaceCb) (ns : NvmeNamespace)
    (l : List (Option NvmeCtrl)) (h : ∀ n, some n ∈ l → cb n ns = none) :
    register_ns_loop cb ns l = (l.reduceOption, none) := by
  induction l with
  | nil => rfl
  | cons x rest ih =>
    have ih2 := ih (fun n hn => h n (List.mem_cons_of_mem _ hn))
    cases x with
    | none => simpa [register_ns_loop, List.reduceOption_cons_of_none] using ih2
    | some m =>
      have hm := h m (List.mem_cons_self _ _)
      simp [register_ns_loop, hm, ih2, List.reduceOption_cons_of_some]

/-- With the first failing callback at cell `j`, the loop invokes the callback
on the occupied cells up to `j` in order and stops with that error. -/
theorem register_ns_loop_fail (cb : RegisterNamespaceCb) (ns : NvmeNamespace)
    (l : List (Option NvmeCtrl)) (j : Nat) (n : NvmeCtrl) (e : Error)
    (hj : l[j]? = some (some n)) (he : cb n ns = some e)
    (hbefore : ∀ i m, i < j → l[i]? = some (some m) → cb m ns = none) :
    register_ns_loop cb ns l = ((l.take (j + 1)).reduceOption, some e) := by
  induction l generalizing j with
  | nil => simp at hj
  | cons x rest ih =>
    cases j with
    | zero =>
      simp only [List.getElem?_cons_zero, Option.some.injEq] at hj
      subst hj
      simp [register_ns_loop, he, List.reduceOption_cons_of_some]
    | succ k =>
      have ih2 := ih k (by simpa using hj)
        (fun i m hi hm => hbefore (i + 1) m (by omega) (by simpa using hm))
      cases x with
      | none => simpa [register_ns_loop, List.reduceOption_cons_of_none] using ih2
      | some m =>
        have hm := hbefore 0 m (by omega) (by simp)
        simp [register_ns_loop, hm, ih2, List.reduceOption_cons_of_some]

theorem ana_change_notify_eq (l : List (Option NvmeCtrl)) :
    ana_change_notify l =
      l.reduceOption.map (fun n => (n, NvmeAerInfo.NVME_AER_INFO_ANA_CHANGE)) := by
  induction l with
  | nil => rfl
  | cons x rest ih =>
    cases x with
    | none => simpa [ana_change_notify, List.reduceOption_cons_of_none] using ih
    | some m => simp [ana_change_notify, ih, List.reduceOption_cons_of_some]

theorem CArray.mem_toList_iff {α : Type} {n : Nat} (a : CArray α n) (x : α) :
    x ∈ a.toList ↔ ∃ i : Fin n, a.get i = x := by
  constructor
  · intro hx
    obtain ⟨i, hi, rfl⟩ := List.getElem_of_mem hx
    have hi2 : i < n := by rw [← a.2]; exact hi
    refine ⟨⟨i, hi2⟩, ?_⟩
    have := CArray.get_eq_getElem a ⟨i, hi2⟩
    rw [List.getElem?_eq_getElem hi] at this
    exact (Option.some.inj this).symm
  · rintro ⟨i, rfl⟩
    exact List.getElem?_mem (CArray.get_eq_getElem a i)

/-- C3: registering a namespace whose id slot is occupied fails with the
already-registered error and changes nothing: the subsystem (the stored
reference, every other namespace slot, every group's membership set) and the
namespace object with its back-reference are as before, and no
cross-registration callback is invoked. -/
theorem register_ns_occupied_slot (cb : RegisterNamespaceCb) (s : NvmeSubsystem)
    (ns : NvmeNamespace) (p : Nat)
    (h : s.namespaces.read? (nvme_nsid ns) = some (some p)) :
    ∃ r, nvme_subsys_register_ns cb s ns = some r ∧ r.ret = -1 ∧
      r.errp = some (Error.ns_already_registered (nvme_nsid ns) s.parent_obj_id) ∧
      r.subsys = s ∧ r.subsys.namespaces.read? (nvme_nsid ns) = some (some p) ∧
      r.subsys.namespaces = s.namespaces ∧ r.subsys.ana = s.ana ∧
      r.ns = ns ∧ r.ns.ana = ns.ana ∧ r.calls = [] :=
  ⟨_, register_ns_of_occupied cb s ns p h, rfl, rfl, rfl, h, rfl, rfl, rfl, rfl, rfl⟩

/-- C5: registering a namespace whose slot is free.  If the callback fails on
none of the registered controllers (and the declared group id is within the
group table), the call succeeds having invoked the callback once on every
occupied slot, in ascending slot order.  If slot `j` is the first whose
callback fails, the call returns -1 with that error, the callback was invoked
on the occupied slots up to `j` only, the namespace slot holds the new
namespace and the group table is unchanged. -/
theorem register_ns_callbacks (cb : RegisterNamespaceCb) (s : NvmeSubsystem)
    (ns : NvmeNamespace) (h : nvme_nsid ns < 32)
    (hfree : s.namespaces.get ⟨nvme_nsid ns, h⟩ = none) :
    ((∀ (i : Fin 32) (n : NvmeCtrl), s.ctrls.get i = some n → cb n ns = none) →
      ns.params_anagrpid ≤ 32 →
      ∃ r, nvme_subsys_register_ns cb s ns = some r ∧ r.ret = 0 ∧ r.errp = none ∧
        r.calls = s.ctrls.toList.reduceOption) ∧
    (∀ (j : Fin 32) (n : NvmeCtrl) (e : Error), s.ctrls.get j = some n → cb n ns = some e →
      (∀ (i : Fin 32) (m : NvmeCtrl), i < j → s.ctrls.get i = some m → cb m ns = none) →
      ∃ r, nvme_subsys_register_ns cb s ns = some r ∧ r.ret = -1 ∧ r.errp = some e ∧
        r.calls = (s.ctrls.toList.take (j.val + 1)).reduceOption ∧
        r.subsys.namespaces.get ⟨nvme_nsid ns, h⟩ = some ns.addr ∧
        r.subsys.ana = s.ana ∧ r.subsys.ctrls = s.ctrls ∧ r.ns = ns) := by
  constructor
  · intro hall hg
    have hl := register_ns_loop_all cb ns s.ctrls.toList (fun n hn => by
      obtain ⟨i, hi⟩ := (CArray.mem_toList_iff s.ctrls (some n)).mp hn
      exact hall i n hi)
    by_cases hg0 : ns.params_anagrpid = 0
    · refine ⟨_, register_ns_of_ungrouped cb s ns h hfree (by rw [hl]) hg0, rfl, rfl, ?_⟩
      simp only [hl]
    · refine ⟨_, register_ns_of_grouped cb s ns h hfree (by rw [hl]) hg0 (by omega),
        rfl, rfl, ?_⟩
      simp only [hl]
  · intro j n e hj he hbefore
    have hl := register_ns_loop_fail cb ns s.ctrls.toList j.val n e
      (by rw [CArray.get_eq_getElem, hj]) he (fun i m hi hm => by
        have hi2 : i < 32 := lt_trans hi j.isLt
        have := CArray.get_eq_getElem s.ctrls ⟨i, hi2⟩
        rw [hm] at this
        exact hbefore ⟨i, hi2⟩ m hi (Option.some.inj this).symm)
    refine ⟨_, register_ns_of_cb_failure cb s ns h hfree e (by rw [hl]), rfl, rfl, ?_, ?_,
      rfl, rfl, rfl⟩
    · simp only [hl]
    · exact Mathlib.Vector.get_set_same _ _ _

/-! ## `nvme_subsys_ana_state_change` -/

theorem ana_state_change_of_same (s : NvmeSubsystem) (grpid : Nat) (h : grpid < 33) :
    nvme_subsys_ana_state_change s grpid (s.ana.get ⟨grpid, h⟩).state = some (s, []) := by
  simp [nvme_subsys_ana_state_change, CArray.read?_of_lt _ h]

theorem ana_state_change_of_ne (s : NvmeSubsystem) (grpid state : Nat) (h : grpid < 33)
    (hne : state ≠ (s.ana.get ⟨grpid, h⟩).state) :
    nvme_subsys_ana_state_change s grpid state =
      some ({ s with ana := s.ana.set ⟨grpid, h⟩ { s.ana.get ⟨grpid, h⟩ with state := state } },
        ana_change_notify s.ctrls.toList) := by
  simp [nvme_subsys_ana_state_change, CArray.read?_of_lt _ h, hne, CArray.write?_of_lt _ h]

theorem ana_state_change_of_oob (s : NvmeSubsystem) (grpid state : Nat) (h : 33 ≤ grpid) :
    nvme_subsys_ana_state_change s grpid state = none := by
  simp [nvme_subsys_ana_state_change, CArray.read?_eq_none _ h]

/-- C6: for a group id in 1..32, a state change to the group's current state
returns the subsystem unchanged (group state and change counter included)
and enqueues nothing; so for any state, applying it a second time returns
the subsystem the first application produced and enqueues nothing. -/
theorem ana_state_change_idempotent (s : NvmeSubsystem) (grpid : Nat) (h1 : 1 ≤ grpid)
    (h32 : grpid ≤ 32) :
    ∃ a, s.ana.read? grpid = some a ∧
      nvme_subsys_ana_state_change s grpid a.state = some (s, []) ∧
      ∀ state, ∃ t q, nvme_subsys_ana_state_change s grpid state = some (t, q) ∧
        nvme_subsys_ana_state_change t grpid state = some (t, []) := by
  have h : grpid < 33 := by omega
  refine ⟨_, CArray.read?_of_lt _ h, ana_state_change_of_same s grpid h, ?_⟩
  intro state
  by_cases hs : state = (s.ana.get ⟨grpid, h⟩).state
  · subst hs
    exact ⟨s, [], ana_state_change_of_same s grpid h, ana_state_change_of_same s grpid h⟩
  · refine ⟨_, _, ana_state_change_of_ne s grpid state h hs, ?_⟩
    have := ana_state_change_of_same
      { s with ana := s.ana.set ⟨grpid, h⟩ { s.ana.get ⟨grpid, h⟩ with state := state } } grpid h
    simpa [Mathlib.Vector.get_set_same] using this

/-- C6 at a concrete input: group 3 of the subsystem "sub0" after setup. -/
theorem ana_state_change_idempotent_witness :
    ∃ a, sub0.ana.read? 3 = some a ∧
      nvme_subsys_ana_state_change sub0 3 a.state = some (sub0, []) ∧
      ∀ state, ∃ t q, nvme_subsys_ana_state_change sub0 3 state = some (t, q) ∧
        nvme_subsys_ana_state_change t 3 state = some (t, []) :=
  ana_state_change_idempotent sub0 3 (by decide) (by decide)

/-- C7: for a group id in 1..32 and a state different from the group's
current one, the state change stores the new state in the group and enqueues
one ANA-change notification per occupied controller slot, in ascending slot
order, and nothing else; their number is the number of occupied slots. -/
theorem ana_state_change_notifies (s : NvmeSubsystem) (grpid state : Nat) (h1 : 1 ≤ grpid)
    (h32 : grpid ≤ 32) (a : NvmeAna) (ha : s.ana.read? grpid = some a)
    (hne : state ≠ a.state) :
    ∃ t q, nvme_subsys_ana_state_change s grpid state = some (t, q) ∧
      t.ana.read? grpid = some { a with state := state } ∧
      q = s.ctrls.toList.reduceOption.map
        (fun n => (n, NvmeAerInfo.NVME_AER_INFO_ANA_CHANGE)) ∧
      q.length = s.ctrls.toList.countP (fun c => c.isSome) := by
  have h : grpid < 33 := by omega
  rw [CArray.read?_of_lt _ h] at ha
  cases ha
  refine ⟨_, _, ana_state_change_of_ne s grpid state h hne, ?_, ana_change_notify_eq _, ?_⟩
  · rw [CArray.read?_of_lt _ h]
    simp [Mathlib.Vector.get_set_same]
  · rw [ana_change_notify_eq, List.length_map, List.reduceOption_length_eq]
    simp [List.countP_eq_length_filter]

theorem testBit_set_bit (nr addr i : Nat) :
    (set_bit nr addr).testBit i = (addr.testBit i || decide (i = nr)) := by
  simp only [set_bit, Nat.testBit_or, Nat.one_shiftLeft, Nat.testBit_two_pow]
  congr 1
  by_cases h : nr = i
  · simp [h]
  · have h2 : ¬ i = nr := fun e => h e.symm
    simp [h, h2]

/-- Counting with one more admitted element that the list holds once. -/
theorem length_filter_or_eq (p : Nat → Bool) (N : Nat) (l : List Nat) (hnd : l.Nodup)
    (hN : N ∈ l) (hp : p N = false) :
    (l.filter (fun i => p i || decide (i = N))).length = (l.filter p).length + 1 := by
  induction l with
  | nil => simp at hN
  | cons x rest ih =>
    obtain ⟨hx, hnd2⟩ := List.nodup_cons.mp hnd
    by_cases hxN : x = N
    · subst hxN
      have hrest : rest.filter (fun i => p i || decide (i = x)) = rest.filter p := by
        apply List.filter_congr
        intro y hy
        have : y ≠ x := fun e => hx (e ▸ hy)
        simp [this]
      simp [List.filter_cons, hp, hrest]
    · have hN2 : N ∈ rest := by
        rcases List.mem_cons.mp hN with h | h
        · exact absurd h.symm hxN
        · exact h
      have := ih hnd2 hN2
      by_cases hpx : p x = true
      · simp [List.filter_cons, hpx, this]
      · simp [List.filter_cons, hpx, hxN, this]

theorem bitmap_count_one_set_bit (bitmap nbits nr : Nat) (hnr : nr < nbits)
    (hclear : bitmap.testBit nr = false) :
    bitmap_count_one (set_bit nr bitmap) nbits = bitmap_count_one bitmap nbits + 1 := by
  unfold bitmap_count_one
  have h := length_filter_or_eq (fun i => bitmap.testBit i) nr (List.range nbits)
    (List.nodup_range nbits) (List.mem_range.mpr hnr) hclear
  rw [← h]
  congr 1
  apply List.filter_congr
  intro i _
  exact testBit_set_bit nr bitmap i

theorem bitmap_count_one_zero (nbits : Nat) : bitmap_count_one 0 nbits = 0 := by
  simp [bitmap_count_one]

/-- What a state change leaves alone: everything but the `state` field of the
group it addresses. -/
theorem ana_state_change_frame (s t : NvmeSubsystem) (grpid state : Nat) (q : List Notice)
    (h : nvme_subsys_ana_state_change s grpid state = some (t, q)) :
    ∃ hg : grpid < 33, t = { s with ana := t.ana } ∧
      t.ana = s.ana.set ⟨grpid, hg⟩ { s.ana.get ⟨grpid, hg⟩ with state := state } := by
  by_cases hg : grpid < 33
  · refine ⟨hg, ?_⟩
    by_cases hs : state = (s.ana.get ⟨grpid, hg⟩).state
    · have := ana_state_change_of_same s grpid hg
      rw [← hs, h] at this
      cases this
      refine ⟨rfl, ?_⟩
      apply Mathlib.Vector.ext
      intro m
      by_cases hm : m = ⟨grpid, hg⟩
      · subst hm
        rw [Mathlib.Vector.get_set_same, hs]
      · rw [Mathlib.Vector.get_set_of_ne (Ne.symm hm)]
    · have := ana_state_change_of_ne s grpid state hg hs
      rw [h] at this
      cases this
      exact ⟨rfl, rfl⟩
  · rw [ana_state_change_of_oob s grpid state (by omega)] at h
    cases h

theorem inject_scan_frame (s : NvmeSubsystem) (id : CString) (grpid : Nat) (state : CString)
    (tbl : List (Option CString)) :
    ∀ (i : Nat) (r : HmpResult), inject_scan s id grpid state tbl i = some r →
      (r.dev = some s ∧ r.notices = [] ∧ r.out = HmpOutput.invalid_state id state) ∨
      ∃ t j, r.dev = some t ∧ r.out = HmpOutput.state_injected id state j ∧
        i ≤ j ∧ j < i + tbl.length ∧ tbl[j - i]? = some (some state) ∧
        nvme_subsys_ana_state_change s grpid (j % 256) = some (t, r.notices) := by
  induction tbl with
  | nil =>
    intro i r h
    simp only [inject_scan, Option.some.injEq] at h
    subst h
    exact Or.inl ⟨rfl, rfl, rfl⟩
  | cons x rest ih =>
    intro i r h
    cases x with
    | none => simp [inject_scan] at h
    | some name =>
      simp only [inject_scan] at h
      by_cases hn : name = state
      · rw [if_pos hn] at h
        cases hc : nvme_subsys_ana_state_change s grpid (i % 256) with
        | none => rw [hc] at h; simp at h
        | some p =>
          rw [hc] at h
          simp only [Option.bind_eq_bind, Option.some_bind, Option.some.injEq] at h
          subst h
          exact Or.inr ⟨p.1, i, rfl, rfl, le_refl _, by simp, by simp [hn], hc⟩
      · rw [if_neg hn] at h
        rcases ih (i + 1) r h with h1 | ⟨t, j, h1, h2, h3, h4, h5, h6⟩
        · exact Or.inl h1
        · refine Or.inr ⟨t, j, h1, h2, by omega, by simp only [List.length_cons]; omega, ?_, h6⟩
          have e : j - i = (j - (i + 1)) + 1 := by omega
          rw [e, List.getElem?_cons_succ]
          exact h5

/-! ## `nvme_subsys_setup` -/

theorem setup_loop_spec (K : NvmeAnaStateConsts) (gs : List Nat) :
    ∀ ana : CArray NvmeAna 33, (∀ g ∈ gs, g < 33) →
      ∃ out, setup_loop K gs ana = some out ∧
        ∀ i : Fin 33, out.get i =
          if i.val ∈ gs then
            { grpid := i.val, state := K.NVME_ANA_STATE_OPTIMIZED % 256,
              nsids := (ana.get i).nsids }
          else ana.get i := by
  induction gs with
  | nil => intro ana _; exact ⟨ana, rfl, fun i => by simp⟩
  | cons g rest ih =>
    intro ana hgs
    have hg : g < 33 := hgs g (List.mem_cons_self _ _)
    obtain ⟨out, hout, hget⟩ := ih
      ((ana.set ⟨g, hg⟩ { ana.get ⟨g, hg⟩ with grpid := g }).set ⟨g, hg⟩
        { grpid := g, state := K.NVME_ANA_STATE_OPTIMIZED % 256,
          nsids := (ana.get ⟨g, hg⟩).nsids })
      (fun x hx => hgs x (List.mem_cons_of_mem _ hx))
    refine ⟨out, ?_, ?_⟩
    · simp only [setup_loop, CArray.read?_of_lt _ hg, CArray.write?_of_lt _ hg,
        Option.bind_eq_bind, Option.some_bind, Mathlib.Vector.get_set_same]
      exact hout
    · intro i
      rw [hget i]
      by_cases hi : i = ⟨g, hg⟩
      · subst hi
        simp [Mathlib.Vector.get_set_same]
      · have hne : i.val ≠ g := fun e => hi (Fin.ext e)
        rw [Mathlib.Vector.get_set_of_ne (Ne.symm hi), Mathlib.Vector.get_set_of_ne (Ne.symm hi)]
        simp [hne]

theorem store_bytes_spec (bs : List Nat) :
    ∀ (buf : CArray Nat 256) (i : Nat), i + bs.length ≤ 256 →
      ∃ out, store_bytes buf bs i = some out ∧
        out.toList = buf.toList.take i ++ bs ++ buf.toList.drop (i + bs.length) := by
  induction bs with
  | nil => intro buf i _; exact ⟨buf, rfl, by simp⟩
  | cons b rest ih =>
    intro buf i hi
    simp only [List.length_cons] at hi
    have hlt : i < 256 := by omega
    obtain ⟨out, hout, hl⟩ := ih (buf.set ⟨i, hlt⟩ b) (i + 1) (by omega)
    refine ⟨out, ?_, ?_⟩
    · simp only [store_bytes, CArray.write?_of_lt _ hlt, Option.bind_eq_bind, Option.some_bind]
      exact hout
    · have hlen : buf.toList.length = 256 := buf.2
      rw [hl, CArray.toList_set, List.set_eq_take_append_cons_drop, if_pos (by omega)]
      have e1 : (List.take i buf.toList ++ b :: List.drop (i + 1) buf.toList).take (i + 1) =
          List.take i buf.toList ++ [b] := by
        rw [List.take_append_eq_append_take]
        simp [List.length_take, hlen, Nat.min_eq_left (Nat.le_of_lt hlt)]
      have e2 : (List.take i buf.toList ++ b :: List.drop (i + 1) buf.toList).drop
          (i + 1 + rest.length) = List.drop (i + (rest.length + 1)) buf.toList := by
        rw [List.drop_append_eq_append_drop]
        simp [List.length_take, hlen, Nat.min_eq_left (Nat.le_of_lt hlt)]
        rw [List.drop_of_length_le (by simp; omega)]
        have e3 : i + 1 + rest.length - i = (rest.length) + 1 := by omega
        rw [e3, List.nil_append, List.drop_succ_cons, List.drop_drop]
        congr 1
        omega
      rw [e1, e2, List.length_cons]
      simp

theorem snprintf_256 (out : CString) :
    snprintf 256 out = out.take (min 255 out.length) ++ [0] := by
  have : out.take (min 255 out.length) = out.take 255 := by
    rcases Nat.le_total 255 out.length with h | h
    · rw [Nat.min_eq_left h]
    · rw [Nat.min_eq_right h, List.take_length, List.take_of_length_le h]
  rw [this]
  simp [snprintf]

theorem length_nqn (id : CString) :
    (cstr "nqn.2019-08.org.qemu:" ++ id).length = 21 + id.length := by
  rw [List.length_append]
  rfl

/-- What setup does, field by field. -/
theorem setup_spec (K : NvmeAnaStateConsts) (s : NvmeSubsystem) :
    ∃ t, nvme_subsys_setup K s = some t ∧
      t = { s with subnqn := t.subnqn, ana := t.ana } ∧
      t.subnqn.toList =
        (cstr "nqn.2019-08.org.qemu:" ++ s.parent_obj_id).take
            (min 255 (21 + s.parent_obj_id.length)) ++ [0] ++
          s.subnqn.toList.drop (min 255 (21 + s.parent_obj_id.length) + 1) ∧
      ∀ i : Fin 33, t.ana.get i =
        if 1 ≤ i.val then
          { grpid := i.val, state := K.NVME_ANA_STATE_OPTIMIZED % 256,
            nsids := (s.ana.get i).nsids }
        else s.ana.get i := by
  have hw := snprintf_256 (cstr "nqn.2019-08.org.qemu:" ++ s.parent_obj_id)
  rw [length_nqn] at hw
  have hwl : (snprintf 256 (cstr "nqn.2019-08.org.qemu:" ++ s.parent_obj_id)).length =
      min 255 (21 + s.parent_obj_id.length) + 1 := by
    rw [hw, List.length_append, List.length_take, length_nqn]
    simp
  obtain ⟨buf, hbuf, hbl⟩ := store_bytes_spec
    (snprintf 256 (cstr "nqn.2019-08.org.qemu:" ++ s.parent_obj_id)) s.subnqn 0
    (by rw [hwl]; omega)
  obtain ⟨ana, hana, hget⟩ := setup_loop_spec K setup_anagrpids s.ana (by
    intro g hg
    have := List.mem_range'_1.mp hg
    omega)
  refine ⟨{ s with subnqn := buf, ana := ana }, ?_, rfl, ?_, ?_⟩
  · simp only [nvme_subsys_setup, hbuf, hana, Option.bind_eq_bind, Option.some_bind]
  · show buf.toList = _
    rw [hbl, hwl, hw]
    simp
  · intro i
    show ana.get i = _
    rw [hget i]
    have hmem : i.val ∈ setup_anagrpids ↔ 1 ≤ i.val := by
      unfold setup_anagrpids
      rw [List.mem_range'_1]
      have := i.isLt
      omega
    by_cases h1 : 1 ≤ i.val
    · rw [if_pos (hmem.mpr h1), if_pos h1]
    · rw [if_neg (fun h => h1 (hmem.mp h)), if_neg h1]

/-- C8: after setup of a subsystem whose membership sets are empty (as the
framework constructs it), every group g in 1..32 has grpid = g, state
Optimized (as the `uint8_t` field holds it) and an empty membership set:
member count 0 and no namespace id in it. -/
theorem setup_groups (K : NvmeAnaStateConsts) (s : NvmeSubsystem)
    (hfresh : ∀ i : Fin 33, (s.ana.get i).nsids = 0) :
    ∃ t, nvme_subsys_setup K s = some t ∧
      ∀ g : Nat, 1 ≤ g → g ≤ 32 →
        ∃ a, t.ana.read? g = some a ∧ a.grpid = g ∧
          a.state = K.NVME_ANA_STATE_OPTIMIZED % 256 ∧ a.nsids = 0 ∧
          nvme_subsys_ana_nr_ns a = 0 ∧ ∀ nsid, nvme_subsys_ana_has_ns a nsid = false := by
  obtain ⟨t, ht, _, _, hget⟩ := setup_spec K s
  refine ⟨t, ht, ?_⟩
  intro g h1 h32
  have hg : g < 33 := by omega
  refine ⟨_, CArray.read?_of_lt _ hg, ?_⟩
  rw [hget ⟨g, hg⟩, if_pos h1, hfresh]
  exact ⟨rfl, rfl, rfl, bitmap_count_one_zero _, fun nsid => by
    simp [nvme_subsys_ana_has_ns, test_bit]⟩

/-- C8 at a concrete input: the subsystem "sub0" as constructed. -/
theorem setup_groups_witness :
    ∃ t, nvme_subsys_setup example_consts (nvme_subsys_new (cstr "sub0") true) = some t ∧
      ∀ g : Nat, 1 ≤ g → g ≤ 32 →
        ∃ a, t.ana.read? g = some a ∧ a.grpid = g ∧ a.state = 1 % 256 ∧ a.nsids = 0 ∧
          nvme_subsys_ana_nr_ns a = 0 ∧ ∀ nsid, nvme_subsys_ana_has_ns a nsid = false :=
  setup_groups example_consts (nvme_subsys_new (cstr "sub0") true)
    (fun i => by rw [nvme_subsys_new, Mathlib.Vector.get_replicate])

/-- C9: setup stores in `subnqn` the first min(255, 21 + len(id)) bytes of
"nqn.2019-08.org.qemu:" followed by the identifier, then a NUL, and leaves
the bytes after that alone; every write is inside the 256-byte buffer (the
call is defined and the bytes written number at most 256).  With the
identifier "sub0" the buffer starts with "nqn.2019-08.org.qemu:sub0" and its
NUL. -/
theorem setup_subnqn (K : NvmeAnaStateConsts) (s : NvmeSubsystem) :
    (∃ t, nvme_subsys_setup K s = some t ∧
      t.subnqn.toList =
        (cstr "nqn.2019-08.org.qemu:" ++ s.parent_obj_id).take
            (min 255 (21 + s.parent_obj_id.length)) ++ [0] ++
          s.subnqn.toList.drop (min 255 (21 + s.parent_obj_id.length) + 1) ∧
      min 255 (21 + s.parent_obj_id.length) + 1 ≤ 256) ∧
    (∃ t, nvme_subsys_setup K { s with parent_obj_id := cstr "sub0" } = some t ∧
      t.subnqn.toList.take 26 = cstr "nqn.2019-08.org.qemu:sub0" ++ [0]) := by
  constructor
  · obtain ⟨t, ht, _, hnqn, _⟩ := setup_spec K s
    exact ⟨t, ht, hnqn, by omega⟩
  · obtain ⟨t, ht, _, hnqn, _⟩ := setup_spec K { s with parent_obj_id := cstr "sub0" }
    refine ⟨t, ht, ?_⟩
    rw [hnqn]
    rfl

/-! ## The monitor command and reachable states -/

theorem inject_of_grpid_zero (K : NvmeAnaStateConsts) (s : NvmeSubsystem) (id : CString)
    (state : CString) :
    hmp_nvme_ana_inject_state K (some s) id 0 state =
      some { out := HmpOutput.grpid_should_not_be_0 id, dev := some s, notices := [] } := by
  simp [hmp_nvme_ana_inject_state]

/-- C10, the code at group id 33: with the state name "optimized" the command
passes the `grpid` check, finds the name in the table and runs the state
change on `ana[33]`, outside the group table, so the call is undefined (for
the enumerator values 1, 2, 3, 4 and for 1, 2, 3, 15 alike); no error is
reported.  Only with a name that is not in the table does group id 33 end in
an error line with the subsystem unchanged; group id 0 always does. -/
theorem inject_group_33 (s : NvmeSubsystem) (id : CString) (state : CString) :
    hmp_nvme_ana_inject_state ⟨1, 2, 3, 4⟩ (some s) id 33 (cstr "optimized") = none ∧
    hmp_nvme_ana_inject_state ⟨1, 2, 3, 15⟩ (some s) id 33 (cstr "optimized") = none ∧
    hmp_nvme_ana_inject_state ⟨1, 2, 3, 4⟩ (some s) id 33 (cstr "bogus") =
      some { out := HmpOutput.invalid_state id (cstr "bogus"), dev := some s, notices := [] } ∧
    hmp_nvme_ana_inject_state ⟨1, 2, 3, 4⟩ (some s) id 0 state =
      some { out := HmpOutput.grpid_should_not_be_0 id, dev := some s, notices := [] } := by
  refine ⟨?_, ?_, ?_, inject_of_grpid_zero _ s id state⟩
  · show inject_scan s id 33 (cstr "optimized") (nvme_subsys_ana_states ⟨1, 2, 3, 4⟩) 0 = none
    have e : nvme_subsys_ana_state_change s 33 (1 % 256) = none :=
      ana_state_change_of_oob s 33 _ (by decide)
    simp [nvme_subsys_ana_states, designate, inject_scan, cstr, e]
  · show inject_scan s id 33 (cstr "optimized") (nvme_subsys_ana_states ⟨1, 2, 3, 15⟩) 0 = none
    have e : nvme_subsys_ana_state_change s 33 (1 % 256) = none :=
      ana_state_change_of_oob s 33 _ (by decide)
    simp [nvme_subsys_ana_states, designate, inject_scan, cstr, e]
  · show inject_scan s id 33 (cstr "bogus") (nvme_subsys_ana_states ⟨1, 2, 3, 4⟩) 0 = _
    simp [nvme_subsys_ana_states, designate, inject_scan, cstr]

theorem register_ns_cases (cb : RegisterNamespaceCb) (s : NvmeSubsystem) (ns : NvmeNamespace)
    (r : RegisterNsResult) (h : nvme_subsys_register_ns cb s ns = some r) :
    ∃ hn : nvme_nsid ns < 32,
      (s.namespaces.get ⟨nvme_nsid ns, hn⟩ ≠ none ∧ r.ret = -1 ∧ r.subsys = s ∧ r.ns = ns ∧
        r.calls = []) ∨
      (s.namespaces.get ⟨nvme_nsid ns, hn⟩ = none ∧
        ((r.ret = -1 ∧ r.subsys = with_namespace s ns hn ∧ r.ns = ns) ∨
         (r.ret = 0 ∧ ns.params_anagrpid = 0 ∧ r.subsys = with_namespace s ns hn ∧ r.ns = ns) ∨
         (r.ret = 0 ∧ ∃ hg : ns.params_anagrpid < 33, ns.params_anagrpid ≠ 0 ∧
            r.subsys = { with_namespace s ns hn with
              ana := s.ana.set ⟨ns.params_anagrpid, hg⟩
                (nvme_subsys_ana_register_ns (s.ana.get ⟨ns.params_anagrpid, hg⟩)
                  (nvme_nsid ns)) } ∧
            r.ns = { ns with ana := some ns.params_anagrpid }))) := by
  by_cases hn : nvme_nsid ns < 32
  · refine ⟨hn, ?_⟩
    cases hslot : s.namespaces.get ⟨nvme_nsid ns, hn⟩ with
    | some p =>
      have := register_ns_of_occupied cb s ns p (by rw [CArray.read?_of_lt _ hn, hslot])
      rw [h] at this
      cases this
      exact Or.inl ⟨by simp, rfl, rfl, rfl, rfl⟩
    | none =>
      refine Or.inr ⟨rfl, ?_⟩
      cases hl : (register_ns_loop cb ns s.ctrls.toList).2 with
      | some e =>
        have := register_ns_of_cb_failure cb s ns hn hslot e hl
        rw [h] at this
        cases this
        exact Or.inl ⟨rfl, rfl, rfl⟩
      | none =>
        by_cases hg0 : ns.params_anagrpid = 0
        · have := register_ns_of_ungrouped cb s ns hn hslot hl hg0
          rw [h] at this
          cases this
          exact Or.inr (Or.inl ⟨rfl, hg0, rfl, rfl⟩)
        · by_cases hg : ns.params_anagrpid < 33
          · have := register_ns_of_grouped cb s ns hn hslot hl hg0 hg
            rw [h] at this
            cases this
            exact Or.inr (Or.inr ⟨rfl, hg, hg0, rfl, rfl⟩)
          · rw [register_ns_of_oob_group cb s ns hn hslot hl (by omega)] at h
            cases h
  · rw [register_ns_of_oob cb s ns (by omega)] at h
    cases h

theorem membersRegistered_with_namespace (s : NvmeSubsystem) (ns : NvmeNamespace)
    (hn : nvme_nsid ns < 32) (h : MembersRegistered s) :
    MembersRegistered (with_namespace s ns hn) := by
  intro g nsid hbit
  obtain ⟨hlt, hocc⟩ := h g nsid hbit
  refine ⟨hlt, ?_⟩
  show (s.namespaces.set ⟨nvme_nsid ns, hn⟩ (some ns.addr)).get ⟨nsid, hlt⟩ ≠ none
  by_cases e : (⟨nvme_nsid ns, hn⟩ : Fin 32) = ⟨nsid, hlt⟩
  · rw [← e, Mathlib.Vector.get_set_same]; simp
  · rw [Mathlib.Vector.get_set_of_ne e]; exact hocc

theorem membersRegistered_register_ns (cb : RegisterNamespaceCb) (s : NvmeSubsystem)
    (ns : NvmeNamespace) (r : RegisterNsResult)
    (h : nvme_subsys_register_ns cb s ns = some r) (hs : MembersRegistered s) :
    MembersRegistered r.subsys := by
  obtain ⟨hn, hc | ⟨_, hc | hc | ⟨_, hg, _, hsub, _⟩⟩⟩ := register_ns_cases cb s ns r h
  · rw [hc.2.2.1]; exact hs
  · rw [hc.2.1]; exact membersRegistered_with_namespace s ns hn hs
  · rw [hc.2.2.1]; exact membersRegistered_with_namespace s ns hn hs
  · rw [hsub]
    intro g nsid hbit
    have hw := membersRegistered_with_namespace s ns hn hs
    by_cases e : (⟨ns.params_anagrpid, hg⟩ : Fin 33) = g
    · subst e
      simp only [Mathlib.Vector.get_set_same, nvme_subsys_ana_register_ns,
        testBit_set_bit, Bool.or_eq_true, decide_eq_true_eq] at hbit
      rcases hbit with hbit | hbit
      · exact hw _ nsid hbit
      · subst hbit
        refine ⟨hn, ?_⟩
        show (s.namespaces.set ⟨nvme_nsid ns, hn⟩ (some ns.addr)).get ⟨nvme_nsid ns, hn⟩ ≠ none
        rw [Mathlib.Vector.get_set_same]; simp
    · simp only [Mathlib.Vector.get_set_of_ne e] at hbit
      exact hw g nsid hbit

theorem membersRegistered_reachable (K : NvmeAnaStateConsts) (s : NvmeSubsystem)
    (h : Reachable K s) : MembersRegistered s := by
  induction h with
  | realize id ana s hs =>
    obtain ⟨t, ht, hframe, _, hget⟩ := setup_spec K (nvme_subsys_new id ana)
    rw [nvme_subsys_realize, ht] at hs
    cases hs
    intro g nsid hbit
    rw [hget g] at hbit
    have hz : ((nvme_subsys_new id ana).ana.get g).nsids = 0 := by
      rw [nvme_subsys_new, Mathlib.Vector.get_replicate]
    split at hbit <;> simp [hz] at hbit
  | register_ctrl s n r _ hr ih =>
    obtain ⟨r2, hr2, hc⟩ := register_ctrl_cases s n
    rw [hr] at hr2
    cases hr2
    rcases hc with ⟨_, _, _, _, _, _, _, hsub⟩ | ⟨_, _, _, _, hsub⟩
    · rw [hsub]; exact ih
    · rw [hsub]; exact ih
  | register_ns s cb ns r _ hr ih => exact membersRegistered_register_ns cb s ns r hr ih
  | inject s id grpid state r t _ hr hdev ih =>
    unfold hmp_nvme_ana_inject_state at hr
    simp only [] at hr
    split at hr
    · cases hr; rw [Option.some.injEq] at hdev; rw [← hdev]; exact ih
    · rcases inject_scan_frame s id _ state _ 0 r hr with ⟨h1, _⟩ | ⟨t2, j, h1, _, _, _, _, h6⟩
      · rw [h1, Option.some.injEq] at hdev; rw [← hdev]; exact ih
      · rw [h1, Option.some.injEq] at hdev
        subst hdev
        obtain ⟨hg, hframe, hana⟩ := ana_state_change_frame s t2 _ _ _ h6
        rw [hframe]
        intro g nsid hbit
        have : (t2.ana.get g).nsids = (s.ana.get g).nsids := by
          rw [hana]
          by_cases e : (⟨_, hg⟩ : Fin 33) = g
          · subst e; rw [Mathlib.Vector.get_set_same]
          · rw [Mathlib.Vector.get_set_of_ne e]
        simp only [this] at hbit
        exact ih g nsid hbit

set_option maxRecDepth 100000 in
theorem realize_sub0 :
    nvme_subsys_realize example_consts (nvme_subsys_new (cstr "sub0") true) = some sub0 := by
  decide

theorem reachable_sub0 : Reachable example_consts sub0 :=
  Reachable.realize _ _ _ realize_sub0

set_option maxRecDepth 100000 in
theorem reachable_sub0_two_ctrls : Reachable example_consts sub0_two_ctrls := by
  have h1 : nvme_subsys_register_ctrl sub0 100 = some
      { ret := 0, errp := none,
        subsys := { sub0 with ctrls := ⟨some 100 :: List.replicate 31 none, by decide⟩ } } := by
    decide
  have r1 := Reachable.register_ctrl _ _ _ reachable_sub0 h1
  have h2 : nvme_subsys_register_ctrl
      { sub0 with ctrls := ⟨some 100 :: List.replicate 31 none, by decide⟩ } 101 = some
      { ret := 1, errp := none, subsys := sub0_two_ctrls } := by
    decide
  exact Reachable.register_ctrl _ _ _ r1 h2

/-- C4: in a state reachable from setup, when `nvme_subsys_register_ns`
succeeds for a namespace with id N: if its declared group id is 0, the group
table is unchanged; if its declared group id G is in 1..32, then afterwards
group G's membership set contains N, group G's member count is one more than
before, every other group record is unchanged and the namespace's
back-reference points to group G. -/
theorem register_ns_group_membership (K : NvmeAnaStateConsts) (s : NvmeSubsystem)
    (hs : Reachable K s) (cb : RegisterNamespaceCb) (ns : NvmeNamespace)
    (r : RegisterNsResult) (h : nvme_subsys_register_ns cb s ns = some r) (hok : r.ret = 0) :
    (ns.params_anagrpid = 0 → r.subsys.ana = s.ana) ∧
    (1 ≤ ns.params_anagrpid → ns.params_anagrpid ≤ 32 →
      ∃ a b, s.ana.read? ns.params_anagrpid = some a ∧
        r.subsys.ana.read? ns.params_anagrpid = some b ∧
        nvme_subsys_ana_has_ns b (nvme_nsid ns) = true ∧
        nvme_subsys_ana_nr_ns b = nvme_subsys_ana_nr_ns a + 1 ∧
        b.grpid = a.grpid ∧ b.state = a.state ∧
        (∀ g, g ≠ ns.params_anagrpid → r.subsys.ana.read? g = s.ana.read? g) ∧
        r.ns.ana = some ns.params_anagrpid) := by
  have hinv := membersRegistered_reachable K s hs
  obtain ⟨hn, hc | ⟨hfree, hc | hc | ⟨_, hg, hg0, hsub, hns⟩⟩⟩ := register_ns_cases cb s ns r h
  · rw [hc.2.1] at hok; cases hok
  · rw [hc.1] at hok; cases hok
  · refine ⟨fun _ => by rw [hc.2.2.1]; rfl, fun h1 _ => ?_⟩
    rw [hc.2.1] at h1; cases h1
  · refine ⟨fun h0 => absurd h0 hg0, fun _ _ => ?_⟩
    have hclear : (s.ana.get ⟨ns.params_anagrpid, hg⟩).nsids.testBit (nvme_nsid ns) = false := by
      cases hb : (s.ana.get ⟨ns.params_anagrpid, hg⟩).nsids.testBit (nvme_nsid ns) with
      | false => rfl
      | true =>
        obtain ⟨_, hocc⟩ := hinv _ _ hb
        exact absurd hfree hocc
    refine ⟨_, _, CArray.read?_of_lt _ hg, by rw [hsub]; exact CArray.read?_of_lt _ hg,
      ?_, ?_, ?_, ?_, ?_, by rw [hns]⟩
    · simp [Mathlib.Vector.get_set_same, nvme_subsys_ana_has_ns, nvme_subsys_ana_register_ns,
        test_bit, testBit_set_bit]
    · simp only [Mathlib.Vector.get_set_same, nvme_subsys_ana_nr_ns,
        nvme_subsys_ana_register_ns]
      exact bitmap_count_one_set_bit _ _ _
        (by simp only [NVME_SUBSYS_ANA_NSID_BITMAP_SIZE, NVME_SUBSYS_MAX_ANA_GROUP,
              NVME_SUBSYS_MAX_NAMESPACES]; omega) hclear
    · simp [Mathlib.Vector.get_set_same, nvme_subsys_ana_register_ns]
    · simp [Mathlib.Vector.get_set_same, nvme_subsys_ana_register_ns]
    · intro g hne
      rw [hsub]
      show CArray.read? (Mathlib.Vector.set s.ana ⟨ns.params_anagrpid, hg⟩ _) g =
        CArray.read? s.ana g
      by_cases hg2 : g < 33
      · rw [CArray.read?_of_lt _ hg2, CArray.read?_of_lt _ hg2,
          Mathlib.Vector.get_set_of_ne (fun e => hne (Fin.mk.inj e).symm)]
      · rw [CArray.read?_eq_none _ (by omega), CArray.read?_eq_none _ (by omega)]

set_option maxRecDepth 100000 in
/-- C4 at a concrete input: namespace 5 declaring group 3 registers on the
subsystem "sub0" holding two controllers. -/
theorem register_ns_group_membership_witness :
    ∃ r, nvme_subsys_register_ns (fun _ _ => none) sub0_two_ctrls example_ns = some r ∧
      r.ret = 0 ∧
      ∃ a b, sub0_two_ctrls.ana.read? 3 = some a ∧ r.subsys.ana.read? 3 = some b ∧
        nvme_subsys_ana_has_ns b 5 = true ∧
        nvme_subsys_ana_nr_ns b = nvme_subsys_ana_nr_ns a + 1 ∧
        b.grpid = a.grpid ∧ b.state = a.state ∧
        (∀ g, g ≠ 3 → r.subsys.ana.read? g = sub0_two_ctrls.ana.read? g) ∧
        r.ns.ana = some 3 :=
  ⟨_, rfl, rfl,
    (register_ns_group_membership example_consts sub0_two_ctrls reachable_sub0_two_ctrls
      (fun _ _ => none) example_ns _ rfl rfl).2 (by decide) (by decide)⟩

/-- C3 at a concrete input: a second namespace with id 5 on `sub0_ns5`. -/
theorem register_ns_occupied_slot_witness :
    ∃ r, nvme_subsys_register_ns example_cb sub0_ns5
        { addr := 9, params_nsid := 5, params_anagrpid := 2, ana := none } = some r ∧
      r.ret = -1 ∧ r.errp = some (Error.ns_already_registered 5 (cstr "sub0")) ∧
      r.subsys = sub0_ns5 ∧ r.subsys.namespaces.read? 5 = some (some 7) ∧
      r.subsys.namespaces = sub0_ns5.namespaces ∧ r.subsys.ana = sub0_ns5.ana ∧
      r.ns = { addr := 9, params_nsid := 5, params_anagrpid := 2, ana := none } ∧
      r.ns.ana = none ∧ r.calls = [] :=
  register_ns_occupied_slot example_cb sub0_ns5
    { addr := 9, params_nsid := 5, params_anagrpid := 2, ana := none } 7 (by decide)

/-- C5 at a concrete input: on `sub0_two_ctrls` the callback fails on the
controller of slot 1. -/
theorem register_ns_callbacks_witness :
    ∃ r, nvme_subsys_register_ns example_cb sub0_two_ctrls example_ns = some r ∧
      r.ret = -1 ∧ r.errp = some (Error.ctrl_failure 1) ∧
      r.calls = (sub0_two_ctrls.ctrls.toList.take 2).reduceOption ∧
      r.subsys.namespaces.get ⟨5, by decide⟩ = some 7 ∧
      r.subsys.ana = sub0_two_ctrls.ana ∧ r.subsys.ctrls = sub0_two_ctrls.ctrls ∧
      r.ns = example_ns :=
  (register_ns_callbacks example_cb sub0_two_ctrls example_ns (by decide) (by decide)).2
    ⟨1, by decide⟩ 101 (Error.ctrl_failure 1) (by decide) (by decide)
    (fun i m hi hm => by
      have h1 : i.val < 1 := hi
      have h0 : i = ⟨0, by decide⟩ := Fin.ext (show i.val = 0 by omega)
      subst h0
      have hm2 : some 100 = some m := hm
      cases hm2
      rfl)

/-- C7 at a concrete input: group 3 of `sub0_two_ctrls` goes from state 1 to
state 4. -/
theorem ana_state_change_notifies_witness :
    ∃ t q, nvme_subsys_ana_state_change sub0_two_ctrls 3 4 = some (t, q) ∧
      t.ana.read? 3 = some { grpid := 3, state := 4, nsids := 0 } ∧
      q = sub0_two_ctrls.ctrls.toList.reduceOption.map
        (fun n => (n, NvmeAerInfo.NVME_AER_INFO_ANA_CHANGE)) ∧
      q.length = sub0_two_ctrls.ctrls.toList.countP (fun c => c.isSome) :=
  ana_state_change_notifies sub0_two_ctrls 3 4 (by decide) (by decide)
    { grpid := 3, state := 1, nsids := 0 } (by decide) (by decide)

/-! ## The state-name table -/

theorem length_designate (tbl : List (Option CString)) (i : Nat) (s : CString) :
    (designate tbl i s).length = max tbl.length (i + 1) := by
  simp only [designate, List.length_set, List.length_append, List.length_replicate]
  omega

theorem getElem?_designate (tbl : List (Option CString)) (i : Nat) (s : CString) (j : Nat) :
    (designate tbl i s)[j]? =
      if j = i then some (some s)
      else if j < tbl.length then tbl[j]?
      else if j < i then some none else none := by
  simp only [designate, List.getElem?_set, List.length_append, List.length_replicate,
    List.getElem?_append, List.getElem?_replicate]
  by_cases h1 : i = j
  · subst h1
    simp
    omega
  · have h2 : ¬ j = i := fun e => h1 e.symm
    simp only [h1, h2, if_false]
    by_cases h3 : j < tbl.length
    · simp [h3]
    · simp only [h3, if_false]
      by_cases h4 : j < i
      · rw [if_pos (by omega), if_pos h4]
      · rw [if_neg (by omega), if_neg h4]

/-- The cell `j` of a designated table, NULL when no initializer names it. -/
theorem getD_designate (tbl : List (Option CString)) (i : Nat) (s : CString) (j : Nat) :
    (designate tbl i s)[j]?.getD none = if j = i then some s else tbl[j]?.getD none := by
  rw [getElem?_designate]
  by_cases h1 : j = i
  · simp [h1]
  · simp only [h1, if_false]
    by_cases h2 : j < tbl.length
    · simp [h2]
    · simp only [h2, if_false]
      rw [List.getElem?_eq_none (by omega)]
      split <;> rfl

theorem ana_states_cell (K : NvmeAnaStateConsts) (j : Nat) :
    (nvme_subsys_ana_states K)[j]?.getD none =
      if j = K.NVME_ANA_STATE_CHANGE then some (cstr "change")
      else if j = K.NVME_ANA_STATE_INACCESSIBLE then some (cstr "inaccessible")
      else if j = K.NVME_ANA_STATE_NON_OPTIMIZED then some (cstr "non-optimized")
      else if j = K.NVME_ANA_STATE_OPTIMIZED then some (cstr "optimized")
      else if j = 0 then some (cstr "") else none := by
  simp only [nvme_subsys_ana_states, getD_designate]
  by_cases h0 : j = 0
  · subst h0; simp
  · simp only [h0, if_false]
    rw [List.getElem?_eq_none (by simp only [List.length_singleton]; omega)]
    rfl

theorem ana_states_length (K : NvmeAnaStateConsts) (h : AnaStatesNumbered K) :
    (nvme_subsys_ana_states K).length = 5 := by
  obtain ⟨h1, h2, h3, h4, d1, d2, d3, d4, d5, d6⟩ := h
  simp only [nvme_subsys_ana_states, length_designate, List.length_singleton]
  simp only [Nat.max_def]
  split_ifs <;> omega

/-- With the states numbered 1..4 the table has five cells, each a string:
cell 0 is "" and the cell of each enumerator is its name. -/
theorem ana_states_getElem? (K : NvmeAnaStateConsts) (h : AnaStatesNumbered K) (j : Nat)
    (hj : j < 5) :
    (nvme_subsys_ana_states K)[j]? = some
      (if j = K.NVME_ANA_STATE_CHANGE then some (cstr "change")
       else if j = K.NVME_ANA_STATE_INACCESSIBLE then some (cstr "inaccessible")
       else if j = K.NVME_ANA_STATE_NON_OPTIMIZED then some (cstr "non-optimized")
       else if j = K.NVME_ANA_STATE_OPTIMIZED then some (cstr "optimized")
       else some (cstr "")) := by
  have hlen := ana_states_length K h
  have hcell := ana_states_cell K j
  rw [List.getElem?_eq_getElem (by omega)] at hcell ⊢
  simp only [Option.getD_some] at hcell
  rw [hcell]
  obtain ⟨h1, h2, h3, h4, d1, d2, d3, d4, d5, d6⟩ := h
  congr 1
  split_ifs <;> first | rfl | omega

theorem inject_scan_no_match (s : NvmeSubsystem) (id : CString) (grpid : Nat) (state : CString)
    (tbl : List (Option CString)) (h : ∀ e ∈ tbl, ∃ nm, e = some nm ∧ nm ≠ state) (i : Nat) :
    inject_scan s id grpid state tbl i =
      some { out := HmpOutput.invalid_state id state, dev := some s, notices := [] } := by
  induction tbl generalizing i with
  | nil => rfl
  | cons x rest ih =>
    obtain ⟨nm, rfl, hne⟩ := h x (List.mem_cons_self _ _)
    simp only [inject_scan, if_neg hne]
    exact ih (fun e he => h e (List.mem_cons_of_mem _ he)) (i + 1)

theorem inject_scan_first_match (s : NvmeSubsystem) (id : CString) (grpid : Nat)
    (state : CString) (tbl : List (Option CString)) (c : Nat)
    (hc : tbl[c]? = some (some state))
    (hbefore : ∀ j, j < c → ∃ nm, tbl[j]? = some (some nm) ∧ nm ≠ state) (i : Nat) :
    inject_scan s id grpid state tbl i =
      (nvme_subsys_ana_state_change s grpid ((i + c) % 256)).bind (fun r =>
        some { out := HmpOutput.state_injected id state (i + c), dev := some r.1,
               notices := r.2 }) := by
  induction tbl generalizing i c with
  | nil => simp at hc
  | cons x rest ih =>
    cases c with
    | zero =>
      simp only [List.getElem?_cons_zero, Option.some.injEq] at hc
      subst hc
      simp only [inject_scan, if_true, Nat.add_zero]
      rfl
    | succ k =>
      obtain ⟨nm, h0, hne⟩ := hbefore 0 (by omega)
      simp only [List.getElem?_cons_zero, Option.some.injEq] at h0
      subst h0
      simp only [inject_scan, if_neg hne]
      rw [ih k (by simpa using hc)
        (fun j hj => by simpa using hbefore (j + 1) (by omega)) (i + 1)]
      have e : i + 1 + k = i + (k + 1) := by omega
      rw [e]

theorem inject_of_valid_grpid (K : NvmeAnaStateConsts) (s : NvmeSubsystem) (id : CString)
    (grpid : Nat) (state : CString) (h1 : 1 ≤ grpid) (h32 : grpid ≤ 32) :
    hmp_nvme_ana_inject_state K (some s) id (grpid : Int) state =
      inject_scan s id grpid state (nvme_subsys_ana_states K) 0 := by
  have e : ((grpid : Int) % 4294967296).toNat = grpid := by omega
  simp only [hmp_nvme_ana_inject_state, e]
  rw [if_neg (by omega)]

/-- The name in the table cell `j` when the states are numbered 1..4. -/
theorem ana_states_cells_differ (K : NvmeAnaStateConsts) (h : AnaStatesNumbered K)
    (j c : Nat) (hj : j < 5) (hc : c < 5) (hne : j ≠ c) :
    ∃ a b, (nvme_subsys_ana_states K)[j]? = some (some a) ∧
      (nvme_subsys_ana_states K)[c]? = some (some b) ∧ a ≠ b ∧
      b ∈ [cstr "", cstr "optimized", cstr "non-optimized", cstr "inaccessible",
        cstr "change"] := by
  rw [ana_states_getElem? K h j hj, ana_states_getElem? K h c hc]
  obtain ⟨h1, h2, h3, h4, d1, d2, d3, d4, d5, d6⟩ := h
  split_ifs <;> first
    | omega
    | exact ⟨_, _, rfl, rfl, by decide, by decide⟩

theorem ana_states_mem (K : NvmeAnaStateConsts) (h : AnaStatesNumbered K)
    (e : Option CString) (he : e ∈ nvme_subsys_ana_states K) :
    ∃ nm, e = some nm ∧
      nm ∈ [cstr "", cstr "optimized", cstr "non-optimized", cstr "inaccessible",
        cstr "change"] := by
  obtain ⟨j, hj⟩ := List.mem_iff_getElem?.mp he
  have hlen := ana_states_length K h
  have hj5 : j < 5 := by
    by_contra hge
    rw [List.getElem?_eq_none (by omega)] at hj
    cases hj
  rw [ana_states_getElem? K h j hj5] at hj
  rw [← Option.some.inj hj]
  split_ifs <;> exact ⟨_, rfl, by decide⟩

/-- Injecting the name held by table cell `c` applies the state `c`. -/
theorem inject_of_cell (K : NvmeAnaStateConsts) (h : AnaStatesNumbered K) (s : NvmeSubsystem)
    (id : CString) (grpid : Nat) (h1 : 1 ≤ grpid) (h32 : grpid ≤ 32) (c : Nat) (hc : c < 5)
    (name : CString) (hname : (nvme_subsys_ana_states K)[c]? = some (some name)) :
    ∃ t q, nvme_subsys_ana_state_change s grpid c = some (t, q) ∧
      hmp_nvme_ana_inject_state K (some s) id (grpid : Int) name =
        some { out := HmpOutput.state_injected id name c, dev := some t, notices := q } := by
  rw [inject_of_valid_grpid K s id grpid name h1 h32,
    inject_scan_first_match s id grpid name _ c hname (fun j hj => by
      obtain ⟨a, b, ha, hb, hab, _⟩ := ana_states_cells_differ K h j c (by omega) hc (by omega)
      rw [hname] at hb
      cases hb
      exact ⟨a, ha, hab⟩) 0]
  have e : (0 + c) % 256 = c := by omega
  rw [e, Nat.zero_add]
  have hg : grpid < 33 := by omega
  by_cases hs : c = (s.ana.get ⟨grpid, hg⟩).state
  · refine ⟨s, [], ?_, ?_⟩
    · rw [hs]; exact ana_state_change_of_same s grpid hg
    · rw [hs, ana_state_change_of_same s grpid hg]; rfl
  · refine ⟨_, _, ana_state_change_of_ne s grpid c hg hs, ?_⟩
    rw [ana_state_change_of_ne s grpid c hg hs]; rfl

theorem example_consts_numbered : AnaStatesNumbered example_consts := by decide

/-- When every cell of the state-name table is a defined string, a state name
that equals no cell runs the scan to its end: the invalid-state line is
printed and nothing changes. -/
theorem inject_of_unmatched (K : NvmeAnaStateConsts) (s : NvmeSubsystem) (id : CString)
    (grpid : Nat) (state : CString) (h1 : 1 ≤ grpid) (h32 : grpid ≤ 32)
    (hdef : none ∉ nvme_subsys_ana_states K)
    (hno : some state ∉ nvme_subsys_ana_states K) :
    hmp_nvme_ana_inject_state K (some s) id (grpid : Int) state =
      some { out := HmpOutput.invalid_state id state, dev := some s, notices := [] } := by
  rw [inject_of_valid_grpid K s id grpid state h1 h32]
  apply inject_scan_no_match
  intro e he
  cases e with
  | none => exact absurd he hdef
  | some nm => exact ⟨nm, rfl, fun hnm => hno (hnm ▸ he)⟩

/-- Under the assumption that the states are numbered 1..4 (not known from the
sources): every cell of the state-name table is a defined string (no cell is
NULL), and for a group id in 1..32 and a state name that equals no cell the
command is defined, prints the invalid-state line, returns the subsystem
unchanged and enqueues no notification.  Without the assumption this fails,
see `inject_with_gap`. -/
theorem inject_unrecognized_state (K : NvmeAnaStateConsts) (hK : AnaStatesNumbered K)
    (s : NvmeSubsystem) (id : CString) (grpid : Nat) (state : CString) (h1 : 1 ≤ grpid)
    (h32 : grpid ≤ 32) (hno : some state ∉ nvme_subsys_ana_states K) :
    none ∉ nvme_subsys_ana_states K ∧
    hmp_nvme_ana_inject_state K (some s) id (grpid : Int) state =
      some { out := HmpOutput.invalid_state id state, dev := some s, notices := [] } := by
  have hdef : none ∉ nvme_subsys_ana_states K := by
    intro hmem
    obtain ⟨nm, hnm, _⟩ := ana_states_mem K hK none hmem
    cases hnm
  exact ⟨hdef, inject_of_unmatched K s id grpid state h1 h32 hdef hno⟩

/-- The name "bogus" for group 3 of "sub0", the states being numbered as in
`example_consts`. -/
theorem inject_unrecognized_state_witness :
    none ∉ nvme_subsys_ana_states example_consts ∧
    hmp_nvme_ana_inject_state example_consts (some sub0) (cstr "sub0") 3 (cstr "bogus") =
      some { out := HmpOutput.invalid_state (cstr "sub0") (cstr "bogus"), dev := some sub0,
             notices := [] } :=
  inject_unrecognized_state example_consts example_consts_numbered sub0 (cstr "sub0") 3
    (cstr "bogus") (by decide) (by decide) (by decide)

/-- With a gap in the numbering (here "change" at 15) the table has NULL cells
and the scan for a name it does not find before the gap is undefined. -/
theorem inject_with_gap (s : NvmeSubsystem) (id : CString) :
    hmp_nvme_ana_inject_state ⟨1, 2, 3, 15⟩ (some s) id 3 (cstr "bogus") = none ∧
    hmp_nvme_ana_inject_state ⟨1, 2, 3, 15⟩ (some s) id 3 (cstr "change") = none := by
  constructor
  · show inject_scan s id 3 (cstr "bogus") (nvme_subsys_ana_states ⟨1, 2, 3, 15⟩) 0 = none
    simp [nvme_subsys_ana_states, designate, inject_scan, cstr]
  · show inject_scan s id 3 (cstr "change") (nvme_subsys_ana_states ⟨1, 2, 3, 15⟩) 0 = none
    simp [nvme_subsys_ana_states, designate, inject_scan, cstr]

/-- Under the assumption that the states are numbered 1..4 (not known from the
sources) and for a group id in 1..32: each of the names "optimized",
"non-optimized", "inaccessible", "change" makes the command apply
`nvme_subsys_ana_state_change` with the enumerator of that name and print the
injected line with it; the name "Optimized" is in no cell, so the command
prints the invalid-state line and changes nothing.  Without the assumption
this fails, see `inject_with_gap`. -/
theorem inject_recognized_state (K : NvmeAnaStateConsts) (hK : AnaStatesNumbered K)
    (s : NvmeSubsystem) (id : CString) (grpid : Nat) (h1 : 1 ≤ grpid) (h32 : grpid ≤ 32) :
    (∃ t q,
      nvme_subsys_ana_state_change s grpid K.NVME_ANA_STATE_OPTIMIZED = some (t, q) ∧
      hmp_nvme_ana_inject_state K (some s) id (grpid : Int) (cstr "optimized") =
        some { out := HmpOutput.state_injected id (cstr "optimized") K.NVME_ANA_STATE_OPTIMIZED,
               dev := some t, notices := q }) ∧
    (∃ t q,
      nvme_subsys_ana_state_change s grpid K.NVME_ANA_STATE_NON_OPTIMIZED = some (t, q) ∧
      hmp_nvme_ana_inject_state K (some s) id (grpid : Int) (cstr "non-optimized") =
        some { out := HmpOutput.state_injected id (cstr "non-optimized")
                 K.NVME_ANA_STATE_NON_OPTIMIZED,
               dev := some t, notices := q }) ∧
    (∃ t q,
      nvme_subsys_ana_state_change s grpid K.NVME_ANA_STATE_INACCESSIBLE = some (t, q) ∧
      hmp_nvme_ana_inject_state K (some s) id (grpid : Int) (cstr "inaccessible") =
        some { out := HmpOutput.state_injected id (cstr "inaccessible")
                 K.NVME_ANA_STATE_INACCESSIBLE,
               dev := some t, notices := q }) ∧
    (∃ t q,
      nvme_subsys_ana_state_change s grpid K.NVME_ANA_STATE_CHANGE = some (t, q) ∧
      hmp_nvme_ana_inject_state K (some s) id (grpid : Int) (cstr "change") =
        some { out := HmpOutput.state_injected id (cstr "change") K.NVME_ANA_STATE_CHANGE,
               dev := some t, notices := q }) ∧
    hmp_nvme_ana_inject_state K (some s) id (grpid : Int) (cstr "Optimized") =
      some { out := HmpOutput.invalid_state id (cstr "Optimized"), dev := some s,
             notices := [] } := by
  have hK2 := hK
  obtain ⟨a1, a2, a3, a4, d1, d2, d3, d4, d5, d6⟩ := hK2
  refine ⟨?_, ?_, ?_, ?_, ?_⟩
  · exact inject_of_cell K hK s id grpid h1 h32 _ (by omega) _ (by
      rw [ana_states_getElem? K hK _ (by omega)]
      simp [d1, d2, d3])
  · exact inject_of_cell K hK s id grpid h1 h32 _ (by omega) _ (by
      rw [ana_states_getElem? K hK _ (by omega)]
      simp [d4, d5])
  · exact inject_of_cell K hK s id grpid h1 h32 _ (by omega) _ (by
      rw [ana_states_getElem? K hK _ (by omega)]
      simp [d6])
  · exact inject_of_cell K hK s id grpid h1 h32 _ (by omega) _ (by
      rw [ana_states_getElem? K hK _ (by omega)]
      simp)
  · rw [inject_of_valid_grpid K s id grpid _ h1 h32]
    apply inject_scan_no_match
    intro e he
    obtain ⟨nm, rfl, hmem⟩ := ana_states_mem K hK e he
    refine ⟨nm, rfl, ?_⟩
    intro hnm
    rw [hnm] at hmem
    revert hmem
    decide

/-! ## Invariants of the reachable states -/

/-- The names "optimized" and "Optimized" for group 3 of `sub0_two_ctrls`, the
states being numbered as in `example_consts`. -/
theorem inject_recognized_state_witness :
    (∃ t q, nvme_subsys_ana_state_change sub0_two_ctrls 3 1 = some (t, q) ∧
      hmp_nvme_ana_inject_state example_consts (some sub0_two_ctrls) (cstr "sub0") 3
          (cstr "optimized") =
        some { out := HmpOutput.state_injected (cstr "sub0") (cstr "optimized") 1,
               dev := some t, notices := q }) ∧
    hmp_nvme_ana_inject_state example_consts (some sub0_two_ctrls) (cstr "sub0") 3
        (cstr "Optimized") =
      some { out := HmpOutput.invalid_state (cstr "sub0") (cstr "Optimized"),
             dev := some sub0_two_ctrls, notices := [] } :=
  ⟨(inject_recognized_state example_consts example_consts_numbered sub0_two_ctrls (cstr "sub0") 3
      (by decide) (by decide)).1,
   (inject_recognized_state example_consts example_consts_numbered sub0_two_ctrls (cstr "sub0") 3
      (by decide) (by decide)).2.2.2.2⟩

set_option maxRecDepth 100000 in
/-- C13, the code on the empty state name: cell 0 of the table is "", so the
command accepts the name "" for group 3 of `sub0_two_ctrls`, stores state 0
(none of the four enumerators) in the group and notifies both controllers;
the resulting state is reachable from setup. -/
theorem inject_empty_name :
    ∃ t, hmp_nvme_ana_inject_state example_consts (some sub0_two_ctrls) (cstr "sub0") 3
        (cstr "") =
        some { out := HmpOutput.state_injected (cstr "sub0") (cstr "") 0, dev := some t,
               notices := [(100, NvmeAerInfo.NVME_AER_INFO_ANA_CHANGE),
                           (101, NvmeAerInfo.NVME_AER_INFO_ANA_CHANGE)] } ∧
      Reachable example_consts t ∧
      t.ana.read? 3 = some { grpid := 3, state := 0, nsids := 0 } ∧
      0 ∉ [example_consts.NVME_ANA_STATE_OPTIMIZED, example_consts.NVME_ANA_STATE_NON_OPTIMIZED,
        example_consts.NVME_ANA_STATE_INACCESSIBLE, example_consts.NVME_ANA_STATE_CHANGE] :=
  ⟨_, rfl, Reachable.inject sub0_two_ctrls (cstr "sub0") 3 (cstr "") _ _
    reachable_sub0_two_ctrls rfl rfl, by decide, by decide⟩

/-- What the monitor command leaves alone: everything but the `state` field
of one group. -/
theorem inject_frame (K : NvmeAnaStateConsts) (s : NvmeSubsystem) (id : CString) (grpid : Int)
    (state : CString) (r : HmpResult) (t : NvmeSubsystem)
    (hr : hmp_nvme_ana_inject_state K (some s) id grpid state = some r) (hdev : r.dev = some t) :
    t = { s with ana := t.ana } ∧
    ∀ g : Fin 33, (t.ana.get g).nsids = (s.ana.get g).nsids ∧
      (t.ana.get g).grpid = (s.ana.get g).grpid := by
  unfold hmp_nvme_ana_inject_state at hr
  simp only [] at hr
  split at hr
  · cases hr
    rw [Option.some.injEq] at hdev
    subst hdev
    exact ⟨rfl, fun g => ⟨rfl, rfl⟩⟩
  · rcases inject_scan_frame s id _ state _ 0 r hr with ⟨h1, _⟩ | ⟨t2, j, h1, _, _, _, _, h6⟩
    · rw [h1, Option.some.injEq] at hdev
      subst hdev
      exact ⟨rfl, fun g => ⟨rfl, rfl⟩⟩
    · rw [h1, Option.some.injEq] at hdev
      subst hdev
      obtain ⟨hg, hframe, hana⟩ := ana_state_change_frame s t2 _ _ _ h6
      refine ⟨hframe, fun g => ?_⟩
      rw [hana]
      by_cases e : (⟨_, hg⟩ : Fin 33) = g
      · subst e; rw [Mathlib.Vector.get_set_same]; exact ⟨rfl, rfl⟩
      · rw [Mathlib.Vector.get_set_of_ne e]; exact ⟨rfl, rfl⟩

theorem register_ctrl_frame (s : NvmeSubsystem) (n : NvmeCtrl) (r : RegisterCtrlResult)
    (h : nvme_subsys_register_ctrl s n = some r) :
    r.subsys = { s with ctrls := r.subsys.ctrls } := by
  obtain ⟨r2, hr2, hc⟩ := register_ctrl_cases s n
  rw [h] at hr2
  cases hr2
  rcases hc with ⟨_, _, _, _, _, _, _, hsub⟩ | ⟨_, _, _, _, hsub⟩
  · exact hsub
  · rw [hsub]

theorem membershipUnique_register_ns (cb : RegisterNamespaceCb) (s : NvmeSubsystem)
    (ns : NvmeNamespace) (r : RegisterNsResult)
    (h : nvme_subsys_register_ns cb s ns = some r) (hm : MembersRegistered s)
    (hu : MembershipUnique s) : MembershipUnique r.subsys := by
  obtain ⟨hn, hc | ⟨hfree, hc | hc | ⟨_, hg, _, hsub, _⟩⟩⟩ := register_ns_cases cb s ns r h
  · rw [hc.2.2.1]; exact hu
  · rw [hc.2.1]; exact hu
  · rw [hc.2.2.1]; exact hu
  · rw [hsub]
    have hclear : ∀ g : Fin 33, (s.ana.get g).nsids.testBit (nvme_nsid ns) = false := by
      intro g
      cases hb : (s.ana.get g).nsids.testBit (nvme_nsid ns) with
      | false => rfl
      | true =>
        obtain ⟨_, hocc⟩ := hm g _ hb
        exact absurd hfree hocc
    have hbits : ∀ (g : Fin 33) (nsid : Nat),
        ((s.ana.set ⟨ns.params_anagrpid, hg⟩
          (nvme_subsys_ana_register_ns (s.ana.get ⟨ns.params_anagrpid, hg⟩)
            (nvme_nsid ns))).get g).nsids.testBit nsid = true →
        (nsid = nvme_nsid ns ∧ g = ⟨ns.params_anagrpid, hg⟩) ∨
        (nsid ≠ nvme_nsid ns ∧ (s.ana.get g).nsids.testBit nsid = true) := by
      intro g nsid hbit
      by_cases e : (⟨ns.params_anagrpid, hg⟩ : Fin 33) = g
      · subst e
        simp only [Mathlib.Vector.get_set_same, nvme_subsys_ana_register_ns,
          testBit_set_bit, Bool.or_eq_true, decide_eq_true_eq] at hbit
        by_cases hn2 : nsid = nvme_nsid ns
        · exact Or.inl ⟨hn2, rfl⟩
        · rcases hbit with hbit | hbit
          · exact Or.inr ⟨hn2, hbit⟩
          · exact absurd hbit hn2
      · rw [Mathlib.Vector.get_set_of_ne e] at hbit
        refine Or.inr ⟨?_, hbit⟩
        intro hn2
        rw [hn2, hclear g] at hbit
        cases hbit
    intro g1 g2 nsid hb1 hb2
    rcases hbits g1 nsid hb1 with ⟨hn1, e1⟩ | ⟨n1, b1⟩
    · rcases hbits g2 nsid hb2 with ⟨_, e2⟩ | ⟨n2, _⟩
      · rw [e1, e2]
      · exact absurd hn1 n2
    · rcases hbits g2 nsid hb2 with ⟨hnn, _⟩ | ⟨_, b2⟩
      · exact absurd hnn n1
      · exact hu g1 g2 nsid b1 b2

theorem membershipUnique_reachable (K : NvmeAnaStateConsts) (s : NvmeSubsystem)
    (h : Reachable K s) : MembershipUnique s := by
  induction h with
  | realize id ana s hs =>
    obtain ⟨t, ht, hframe, _, hget⟩ := setup_spec K (nvme_subsys_new id ana)
    rw [nvme_subsys_realize, ht] at hs
    cases hs
    intro g1 g2 nsid hbit _
    rw [hget g1] at hbit
    have hz : ((nvme_subsys_new id ana).ana.get g1).nsids = 0 := by
      rw [nvme_subsys_new, Mathlib.Vector.get_replicate]
    split at hbit <;> simp [hz] at hbit
  | register_ctrl s n r _ hr ih =>
    rw [register_ctrl_frame s n r hr]; exact ih
  | register_ns s cb ns r hs hr ih =>
    exact membershipUnique_register_ns cb s ns r hr (membersRegistered_reachable K s hs) ih
  | inject s id grpid state r t _ hr hdev ih =>
    obtain ⟨_, hbits⟩ := inject_frame K s id grpid state r t hr hdev
    intro g1 g2 nsid hb1 hb2
    rw [(hbits g1).1] at hb1
    rw [(hbits g2).1] at hb2
    exact ih g1 g2 nsid hb1 hb2

/-- C14: in every state reachable from setup, a namespace id is in the
membership set of at most one group: two groups that both hold it are the
same group. -/
theorem membership_in_one_group (K : NvmeAnaStateConsts) (s : NvmeSubsystem)
    (h : Reachable K s) (g1 g2 : Nat) (a1 a2 : NvmeAna) (nsid : Nat)
    (h1 : s.ana.read? g1 = some a1) (h2 : s.ana.read? g2 = some a2)
    (m1 : nvme_subsys_ana_has_ns a1 nsid = true) (m2 : nvme_subsys_ana_has_ns a2 nsid = true) :
    g1 = g2 := by
  have hu := membershipUnique_reachable K s h
  by_cases hg1 : g1 < 33
  · by_cases hg2 : g2 < 33
    · rw [CArray.read?_of_lt _ hg1] at h1
      rw [CArray.read?_of_lt _ hg2] at h2
      cases h1
      cases h2
      exact congrArg Fin.val (hu ⟨g1, hg1⟩ ⟨g2, hg2⟩ nsid m1 m2)
    · rw [CArray.read?_eq_none _ (by omega)] at h2; cases h2
  · rw [CArray.read?_eq_none _ (by omega)] at h1; cases h1

set_option maxRecDepth 100000 in
theorem register_example_ns :
    nvme_subsys_register_ns (fun _ _ => none) sub0_two_ctrls example_ns =
      some { ret := 0, errp := none, subsys := sub0_grouped,
             ns := { example_ns with ana := some 3 }, calls := [100, 101] } := by
  decide

theorem reachable_sub0_grouped : Reachable example_consts sub0_grouped :=
  Reachable.register_ns _ _ _ _ reachable_sub0_two_ctrls register_example_ns

set_option maxRecDepth 100000 in
/-- C14 at a concrete input: in `sub0_grouped` namespace id 5 is in group 3. -/
theorem membership_in_one_group_witness :
    Reachable example_consts sub0_grouped ∧
    sub0_grouped.ana.read? 3 = some { grpid := 3, state := 1, nsids := 32 } ∧
    nvme_subsys_ana_has_ns { grpid := 3, state := 1, nsids := 32 } 5 = true ∧
    (3 : Nat) = 3 :=
  ⟨reachable_sub0_grouped, by decide, by decide,
    membership_in_one_group example_consts sub0_grouped reachable_sub0_grouped 3 3
      { grpid := 3, state := 1, nsids := 32 } { grpid := 3, state := 1, nsids := 32 } 5
      (by decide) (by decide) (by decide) (by decide)⟩

/-- C15, the code at namespace id 32: the occupancy test reads
`namespaces[32]`, outside the 32-cell namespace table, so the call is
undefined whatever the subsystem, the callback and the other fields of the
namespace; the bitmap index 32 alone would be inside the 33-bit membership
bitmap. -/
theorem register_ns_nsid_32 (cb : RegisterNamespaceCb) (s : NvmeSubsystem) (addr : Nat)
    (anagrpid : Nat) (ana : Option Nat) :
    nvme_subsys_register_ns cb s
      { addr := addr, params_nsid := 32, params_anagrpid := anagrpid, ana := ana } = none ∧
    ¬ (32 < NVME_SUBSYS_MAX_NAMESPACES) ∧ 32 < NVME_SUBSYS_ANA_NSID_BITMAP_SIZE :=
  ⟨register_ns_of_oob cb s _ (Nat.le_refl 32), by decide, by decide⟩

set_option maxRecDepth 100000 in
/-- C16, the code at declared group id 33: for a namespace with a free slot,
with no callback failing, the call goes on to `ana[33]`, outside the 33-cell
group table, to record the membership and take the back-reference: it is
undefined, no error is returned.  The only check on the declared id is that
it is not 0. -/
theorem register_ns_anagrpid_33 :
    nvme_subsys_register_ns (fun _ _ => none) sub0_two_ctrls
      { addr := 7, params_nsid := 5, params_anagrpid := 33, ana := none } = none ∧
    ∃ r, nvme_subsys_register_ns (fun _ _ => none) sub0_two_ctrls
      { addr := 7, params_nsid := 5, params_anagrpid := 0, ana := none } = some r ∧
      r.ret = 0 ∧ r.subsys.ana = sub0_two_ctrls.ana ∧ r.ns.ana = none :=
  ⟨by decide, _, rfl, rfl, rfl, rfl⟩

set_option maxRecDepth 100000 in
/-- The end-to-end scenario on "sub0" evaluated with the numbering of
`example_consts` (an assumption: the enumerator values are not known from
the sources, and with a gap in them the two last "change" and "bogus" steps
are undefined, see `inject_with_gap`).  Setup gives `sub0`;
controllers 100 and 101 get slots 0 and 1; namespace 5 declaring group 3
registers with the callback invoked on 100 then 101 and 5 in group 3's set;
"change" for group 3 stores the Change state and enqueues one notification to
each controller; "change" again enqueues nothing; group id 0 and the name
"bogus" are rejected with the subsystem unchanged. -/
theorem end_to_end_scenario :
    nvme_subsys_realize example_consts (nvme_subsys_new (cstr "sub0") true) = some sub0 ∧
    (∃ r0 r1, nvme_subsys_register_ctrl sub0 100 = some r0 ∧ r0.ret = 0 ∧
      nvme_subsys_register_ctrl r0.subsys 101 = some r1 ∧ r1.ret = 1 ∧
      r1.subsys = sub0_two_ctrls) ∧
    nvme_subsys_register_ns (fun _ _ => none) sub0_two_ctrls example_ns =
      some { ret := 0, errp := none, subsys := sub0_grouped,
             ns := { example_ns with ana := some 3 }, calls := [100, 101] } ∧
    (∃ a, sub0_grouped.ana.read? 3 = some a ∧ nvme_subsys_ana_has_ns a 5 = true) ∧
    hmp_nvme_ana_inject_state example_consts (some sub0_grouped) (cstr "sub0") 3
        (cstr "change") =
      some { out := HmpOutput.state_injected (cstr "sub0") (cstr "change") 4,
             dev := some sub0_changed,
             notices := [(100, NvmeAerInfo.NVME_AER_INFO_ANA_CHANGE),
                         (101, NvmeAerInfo.NVME_AER_INFO_ANA_CHANGE)] } ∧
    sub0_changed.ana.read? 3 =
      some { grpid := 3, state := example_consts.NVME_ANA_STATE_CHANGE, nsids := 32 } ∧
    hmp_nvme_ana_inject_state example_consts (some sub0_changed) (cstr "sub0") 3
        (cstr "change") =
      some { out := HmpOutput.state_injected (cstr "sub0") (cstr "change") 4,
             dev := some sub0_changed, notices := [] } ∧
    hmp_nvme_ana_inject_state example_consts (some sub0_changed) (cstr "sub0") 0
        (cstr "change") =
      some { out := HmpOutput.grpid_should_not_be_0 (cstr "sub0"), dev := some sub0_changed,
             notices := [] } ∧
    hmp_nvme_ana_inject_state example_consts (some sub0_changed) (cstr "sub0") 3
        (cstr "bogus") =
      some { out := HmpOutput.invalid_state (cstr "sub0") (cstr "bogus"),
             dev := some sub0_changed, notices := [] } :=
  ⟨realize_sub0, ⟨_, _, rfl, rfl, rfl, rfl, by decide⟩, register_example_ns,
    ⟨_, rfl, by decide⟩, by decide, by decide, by decide, by decide, by decide⟩

theorem ana_state_change_defined (s : NvmeSubsystem) (grpid state : Nat) (hg : grpid < 33) :
    ∃ t q, nvme_subsys_ana_state_change s grpid state = some (t, q) := by
  by_cases hs : state = (s.ana.get ⟨grpid, hg⟩).state
  · exact ⟨s, [], by rw [hs]; exact ana_state_change_of_same s grpid hg⟩
  · exact ⟨_, _, ana_state_change_of_ne s grpid state hg hs⟩

/-- C18: for a group id g in 1..32, a state change is defined and changes at
most the `state` field of group g: the identifier, the qualified name, the
controller table, the namespace table, the change counter, the `ana` option,
the id and the membership set of group g and every other group record are as
before. -/
theorem ana_state_change_only_state (s : NvmeSubsystem) (grpid state : Nat) (h1 : 1 ≤ grpid)
    (h32 : grpid ≤ 32) :
    ∃ t q, nvme_subsys_ana_state_change s grpid state = some (t, q) ∧
      t.parent_obj_id = s.parent_obj_id ∧ t.subnqn = s.subnqn ∧ t.ctrls = s.ctrls ∧
      t.namespaces = s.namespaces ∧ t.ana_change_count = s.ana_change_count ∧
      t.params_ana = s.params_ana ∧
      (∃ a b, s.ana.read? grpid = some a ∧ t.ana.read? grpid = some b ∧
        b.grpid = a.grpid ∧ b.nsids = a.nsids) ∧
      ∀ g, g ≠ grpid → t.ana.read? g = s.ana.read? g := by
  have hg : grpid < 33 := by omega
  obtain ⟨t, q, ht⟩ := ana_state_change_defined s grpid state hg
  obtain ⟨_, hframe, hana⟩ := ana_state_change_frame s t grpid state q ht
  refine ⟨t, q, ht, by rw [hframe], by rw [hframe], by rw [hframe], by rw [hframe],
    by rw [hframe], by rw [hframe], ⟨_, _, CArray.read?_of_lt _ hg, CArray.read?_of_lt _ hg,
    by rw [hana, Mathlib.Vector.get_set_same], by rw [hana, Mathlib.Vector.get_set_same]⟩, ?_⟩
  intro g hne
  by_cases hg2 : g < 33
  · rw [CArray.read?_of_lt _ hg2, CArray.read?_of_lt _ hg2, hana,
      Mathlib.Vector.get_set_of_ne (fun e => hne (Fin.mk.inj e).symm)]
  · rw [CArray.read?_eq_none _ (by omega), CArray.read?_eq_none _ (by omega)]

theorem slotSealed_register_ns (nsid : Nat) (cb : RegisterNamespaceCb) (t : NvmeSubsystem)
    (ns : NvmeNamespace) (r : RegisterNsResult)
    (h : nvme_subsys_register_ns cb t ns = some r) (hseal : SlotSealed nsid t) :
    SlotSealed nsid r.subsys := by
  obtain ⟨⟨hlt, hocc⟩, hbits⟩ := hseal
  have hkeep : ∀ hn : nvme_nsid ns < 32,
      (t.namespaces.set ⟨nvme_nsid ns, hn⟩ (some ns.addr)).get ⟨nsid, hlt⟩ ≠ none := by
    intro hn
    by_cases e : (⟨nvme_nsid ns, hn⟩ : Fin 32) = ⟨nsid, hlt⟩
    · rw [← e, Mathlib.Vector.get_set_same]; simp
    · rw [Mathlib.Vector.get_set_of_ne e]; exact hocc
  obtain ⟨hn, hc | ⟨hfree, hc | hc | ⟨_, hg, _, hsub, _⟩⟩⟩ := register_ns_cases cb t ns r h
  · rw [hc.2.2.1]; exact ⟨⟨hlt, hocc⟩, hbits⟩
  · rw [hc.2.1]; exact ⟨⟨hlt, hkeep hn⟩, hbits⟩
  · rw [hc.2.2.1]; exact ⟨⟨hlt, hkeep hn⟩, hbits⟩
  · rw [hsub]
    refine ⟨⟨hlt, hkeep hn⟩, ?_⟩
    intro g
    show ((t.ana.set ⟨ns.params_anagrpid, hg⟩ _).get g).nsids.testBit nsid = false
    have hne : nsid ≠ nvme_nsid ns := by
      intro e
      subst e
      exact hocc hfree
    by_cases e : (⟨ns.params_anagrpid, hg⟩ : Fin 33) = g
    · subst e
      simp only [Mathlib.Vector.get_set_same, nvme_subsys_ana_register_ns, testBit_set_bit,
        hbits, Bool.false_or, decide_eq_false_iff_not]
      exact hne
    · rw [Mathlib.Vector.get_set_of_ne e]; exact hbits g

theorem slotSealed_steps (K : NvmeAnaStateConsts) (nsid : Nat) (s t : NvmeSubsystem)
    (h : Steps K s t) (hseal : SlotSealed nsid s) : SlotSealed nsid t := by
  induction h with
  | refl => exact hseal
  | register_ctrl t n r _ hr ih => rw [register_ctrl_frame t n r hr]; exact ih
  | register_ns t cb ns r _ hr ih => exact slotSealed_register_ns nsid cb t ns r hr ih
  | inject t id grpid state r u _ hr hdev ih =>
    obtain ⟨hframe, hb⟩ := inject_frame K t id grpid state r u hr hdev
    obtain ⟨hocc, hbits⟩ := ih
    rw [hframe]
    exact ⟨hocc, fun g => by rw [(hb g).1]; exact hbits g⟩

/-- C19: in a state reachable from setup, let a registration of a namespace
with id N whose slot was free fail (a callback failed).  The namespace's
back-reference is as before, and in every state that registrations and
monitor commands lead to afterwards, N is in no group's membership set and
any registration of a namespace with id N is rejected as already registered:
it returns -1, invokes no callback and changes neither the subsystem nor the
namespace object. -/
theorem failed_registration_not_retried (K : NvmeAnaStateConsts) (s : NvmeSubsystem)
    (hs : Reachable K s) (cb : RegisterNamespaceCb) (ns : NvmeNamespace) (r : RegisterNsResult)
    (h : nvme_subsys_register_ns cb s ns = some r)
    (hslot : s.namespaces.read? (nvme_nsid ns) = some none) (hfail : r.ret = -1)
    (t : NvmeSubsystem) (hsteps : Steps K r.subsys t) :
    r.ns.ana = ns.ana ∧
    (∀ g a, t.ana.read? g = some a → nvme_subsys_ana_has_ns a (nvme_nsid ns) = false) ∧
    ∀ (cb2 : RegisterNamespaceCb) (ns2 : NvmeNamespace), nvme_nsid ns2 = nvme_nsid ns →
      ∃ r2, nvme_subsys_register_ns cb2 t ns2 = some r2 ∧ r2.ret = -1 ∧
        r2.errp = some (Error.ns_already_registered (nvme_nsid ns) t.parent_obj_id) ∧
        r2.subsys = t ∧ r2.ns = ns2 ∧ r2.ns.ana = ns2.ana ∧ r2.calls = [] := by
  have hinv := membersRegistered_reachable K s hs
  obtain ⟨hn, hc | ⟨hfree, hc | hc | ⟨hret, _⟩⟩⟩ := register_ns_cases cb s ns r h
  · rw [CArray.read?_of_lt _ hn] at hslot
    exact absurd (Option.some.inj hslot) hc.1
  · have hseal0 : SlotSealed (nvme_nsid ns) r.subsys := by
      rw [hc.2.1]
      refine ⟨⟨hn, ?_⟩, ?_⟩
      · show (s.namespaces.set ⟨nvme_nsid ns, hn⟩ (some ns.addr)).get ⟨nvme_nsid ns, hn⟩ ≠ none
        rw [Mathlib.Vector.get_set_same]; simp
      · intro g
        show (s.ana.get g).nsids.testBit (nvme_nsid ns) = false
        cases hb : (s.ana.get g).nsids.testBit (nvme_nsid ns) with
        | false => rfl
        | true =>
          obtain ⟨_, hocc⟩ := hinv g _ hb
          exact absurd hfree hocc
    obtain ⟨⟨hlt, hocc⟩, hbits⟩ := slotSealed_steps K _ _ t hsteps hseal0
    refine ⟨by rw [hc.2.2], ?_, ?_⟩
    · intro g a ha
      by_cases hg : g < 33
      · rw [CArray.read?_of_lt _ hg] at ha
        cases ha
        exact hbits ⟨g, hg⟩
      · rw [CArray.read?_eq_none _ (by omega)] at ha; cases ha
    · intro cb2 ns2 hid
      cases hp : t.namespaces.get ⟨nvme_nsid ns, hlt⟩ with
      | none => exact absurd hp hocc
      | some p =>
        refine ⟨_, register_ns_of_occupied cb2 t ns2 p (by
          rw [hid, CArray.read?_of_lt _ hlt, hp]), rfl, by rw [hid], rfl, rfl, rfl, rfl⟩
  · rw [hc.1] at hfail; cases hfail
  · rw [hret] at hfail; cases hfail

set_option maxRecDepth 100000 in
/-- C19 at a concrete input: on `sub0_two_ctrls` the registration of namespace
5 fails at controller 101; a second attempt is rejected. -/
theorem failed_registration_not_retried_witness :
    ∃ r, nvme_subsys_register_ns example_cb sub0_two_ctrls example_ns = some r ∧ r.ret = -1 ∧
      r.ns.ana = none ∧
      (∀ g a, r.subsys.ana.read? g = some a → nvme_subsys_ana_has_ns a 5 = false) ∧
      ∀ (cb2 : RegisterNamespaceCb) (ns2 : NvmeNamespace), nvme_nsid ns2 = 5 →
        ∃ r2, nvme_subsys_register_ns cb2 r.subsys ns2 = some r2 ∧ r2.ret = -1 ∧
          r2.errp = some (Error.ns_already_registered 5 r.subsys.parent_obj_id) ∧
          r2.subsys = r.subsys ∧ r2.ns = ns2 ∧ r2.ns.ana = ns2.ana ∧ r2.calls = [] :=
  ⟨_, rfl, rfl,
    failed_registration_not_retried example_consts sub0_two_ctrls reachable_sub0_two_ctrls
      example_cb example_ns _ rfl (by decide) rfl _ (Steps.refl)⟩

/-- C18 at a concrete input: group 3 of `sub0_grouped` goes to state 4. -/
theorem ana_state_change_only_state_witness :
    ∃ t q, nvme_subsys_ana_state_change sub0_grouped 3 4 = some (t, q) ∧
      t.parent_obj_id = sub0_grouped.parent_obj_id ∧ t.subnqn = sub0_grouped.subnqn ∧
      t.ctrls = sub0_grouped.ctrls ∧ t.namespaces = sub0_grouped.namespaces ∧
      t.ana_change_count = sub0_grouped.ana_change_count ∧
      t.params_ana = sub0_grouped.params_ana ∧
      (∃ a b, sub0_grouped.ana.read? 3 = some a ∧ t.ana.read? 3 = some b ∧
        b.grpid = a.grpid ∧ b.nsids = a.nsids) ∧
      ∀ g, g ≠ 3 → t.ana.read? g = sub0_grouped.ana.read? g :=
  ana_state_change_only_state sub0_grouped 3 4 (by decide) (by decide)

theorem ana_change_notify_count (l : List (Option NvmeCtrl)) (n : NvmeCtrl) :
    (ana_change_notify l).count (n, NvmeAerInfo.NVME_AER_INFO_ANA_CHANGE) =
      l.count (some n) := by
  induction l with
  | nil => rfl
  | cons x rest ih =>
    cases x with
    | none => simpa [ana_change_notify, List.count_cons] using ih
    | some m =>
      simp only [ana_change_notify, List.count_cons, ih]
      by_cases h : m = n <;> simp [h]

theorem count_set_free (l : List (Option NvmeCtrl)) (j : Nat) (n : NvmeCtrl)
    (h : l[j]? = some none) : (l.set j (some n)).count (some n) = l.count (some n) + 1 := by
  induction l generalizing j with
  | nil => simp at h
  | cons x rest ih =>
    cases j with
    | zero =>
      simp only [List.getElem?_cons_zero, Option.some.injEq] at h
      subst h
      simp [List.count_cons]
    | succ k =>
      simp only [List.getElem?_cons_succ] at h
      simp only [List.set_cons_succ, List.count_cons, ih k h]
      omega

/-- C20: `nvme_subsys_register_ctrl` does not look for the controller in the
table.  Registering a controller that already occupies slot i, with some slot
free, succeeds and returns an index j different from i; afterwards the
controller is in both slots, and a state change of a group in 1..32 to a
different state enqueues one notification to it per slot it occupies, that
is at least two. -/
theorem register_ctrl_duplicate (s : NvmeSubsystem) (n : NvmeCtrl) (i : Fin 32)
    (hi : s.ctrls.get i = some n) (k : Fin 32) (hk : s.ctrls.get k = none) :
    ∃ (r : RegisterCtrlResult) (j : Fin 32), nvme_subsys_register_ctrl s n = some r ∧
      r.ret = (j.val : Int) ∧ r.errp = none ∧ j ≠ i ∧
      r.subsys.ctrls.get i = some n ∧ r.subsys.ctrls.get j = some n ∧
      ∀ (grpid state : Nat) (a : NvmeAna), 1 ≤ grpid → grpid ≤ 32 →
        r.subsys.ana.read? grpid = some a → state ≠ a.state →
        ∃ t q, nvme_subsys_ana_state_change r.subsys grpid state = some (t, q) ∧
          q.count (n, NvmeAerInfo.NVME_AER_INFO_ANA_CHANGE) =
            s.ctrls.toList.count (some n) + 1 ∧
          2 ≤ q.count (n, NvmeAerInfo.NVME_AER_INFO_ANA_CHANGE) := by
  obtain ⟨h2, h3, h4⟩ := register_ctrl_scan_table s
  have hlt : register_ctrl_scan s.ctrls.toList 0 < 32 := by
    by_contra hge
    exact h3 k (by have := k.isLt; omega) hk
  have hfree := h4 hlt
  have hji : (⟨_, hlt⟩ : Fin 32) ≠ i := by
    intro e
    rw [e, hi] at hfree
    cases hfree
  refine ⟨_, ⟨_, hlt⟩, register_ctrl_of_free s n hlt, rfl, rfl, hji, ?_, ?_, ?_⟩
  · show (s.ctrls.set ⟨_, hlt⟩ (some n)).get i = some n
    rw [Mathlib.Vector.get_set_of_ne hji]; exact hi
  · exact Mathlib.Vector.get_set_same _ _ _
  · intro grpid state a h1 h32 ha hne
    have hg : grpid < 33 := by omega
    rw [CArray.read?_of_lt _ hg] at ha
    cases ha
    refine ⟨_, _, ana_state_change_of_ne _ grpid state hg hne, ?_⟩
    have hcount : (ana_change_notify (s.ctrls.set ⟨_, hlt⟩ (some n)).toList).count
        (n, NvmeAerInfo.NVME_AER_INFO_ANA_CHANGE) = s.ctrls.toList.count (some n) + 1 := by
      rw [ana_change_notify_count, CArray.toList_set]
      exact count_set_free _ _ n (by rw [CArray.get_eq_getElem s.ctrls ⟨_, hlt⟩, hfree])
    refine ⟨hcount, ?_⟩
    have hpos : 0 < s.ctrls.toList.count (some n) :=
      List.count_pos_iff.mpr ((CArray.mem_toList_iff s.ctrls (some n)).mpr ⟨i, hi⟩)
    show 2 ≤ (ana_change_notify (s.ctrls.set ⟨_, hlt⟩ (some n)).toList).count _
    rw [hcount]
    omega

set_option maxRecDepth 100000 in
/-- C20 at a concrete input: controller 100 of `sub0_two_ctrls` registers
again and gets slot 2; a change of group 3 to state 4 then notifies it
twice. -/
theorem register_ctrl_duplicate_witness :
    ∃ (r : RegisterCtrlResult) (j : Fin 32),
      nvme_subsys_register_ctrl sub0_two_ctrls 100 = some r ∧
      r.ret = (j.val : Int) ∧ r.errp = none ∧ j ≠ ⟨0, by decide⟩ ∧
      r.subsys.ctrls.get ⟨0, by decide⟩ = some 100 ∧ r.subsys.ctrls.get j = some 100 ∧
      ∀ (grpid state : Nat) (a : NvmeAna), 1 ≤ grpid → grpid ≤ 32 →
        r.subsys.ana.read? grpid = some a → state ≠ a.state →
        ∃ t q, nvme_subsys_ana_state_change r.subsys grpid state = some (t, q) ∧
          q.count (100, NvmeAerInfo.NVME_AER_INFO_ANA_CHANGE) =
            sub0_two_ctrls.ctrls.toList.count (some 100) + 1 ∧
          2 ≤ q.count (100, NvmeAerInfo.NVME_AER_INFO_ANA_CHANGE) :=
  register_ctrl_duplicate sub0_two_ctrls 100 ⟨0, by decide⟩ (by decide) ⟨2, by decide⟩
    (by decide)

/-- In the states reachable from setup the groups 1..32 keep the id that
setup gave them, and group 0 has no member. -/
theorem group_ids_reachable (K : NvmeAnaStateConsts) (s : NvmeSubsystem) (h : Reachable K s) :
    (∀ g : Fin 33, 1 ≤ g.val → (s.ana.get g).grpid = g.val) ∧
    (s.ana.get ⟨0, by decide⟩).nsids = 0 := by
  induction h with
  | realize id ana s hs =>
    obtain ⟨t, ht, _, _, hget⟩ := setup_spec K (nvme_subsys_new id ana)
    rw [nvme_subsys_realize, ht] at hs
    cases hs
    refine ⟨fun g hg => by rw [hget g, if_pos hg], ?_⟩
    rw [hget ⟨0, by decide⟩, if_neg (by decide), nvme_subsys_new, Mathlib.Vector.get_replicate]
  | register_ctrl s n r _ hr ih => rw [register_ctrl_frame s n r hr]; exact ih
  | register_ns s cb ns r _ hr ih =>
    obtain ⟨hn, hc | ⟨_, hc | hc | ⟨_, hg, hg0, hsub, _⟩⟩⟩ := register_ns_cases cb s ns r hr
    · rw [hc.2.2.1]; exact ih
    · rw [hc.2.1]; exact ih
    · rw [hc.2.2.1]; exact ih
    · rw [hsub]
      constructor
      · intro g hg1
        show ((s.ana.set ⟨ns.params_anagrpid, hg⟩ _).get g).grpid = g.val
        by_cases e : (⟨ns.params_anagrpid, hg⟩ : Fin 33) = g
        · subst e
          rw [Mathlib.Vector.get_set_same]
          exact ih.1 _ hg1
        · rw [Mathlib.Vector.get_set_of_ne e]; exact ih.1 g hg1
      · show ((s.ana.set ⟨ns.params_anagrpid, hg⟩ _).get ⟨0, by decide⟩).nsids = 0
        rw [Mathlib.Vector.get_set_of_ne (fun e => hg0 (Fin.mk.inj e))]
        exact ih.2
  | inject s id grpid state r t _ hr hdev ih =>
    obtain ⟨_, hb⟩ := inject_frame K s id grpid state r t hr hdev
    exact ⟨fun g hg => by rw [(hb g).2]; exact ih.1 g hg, by rw [(hb _).1]; exact ih.2⟩

end NvmeSubsys
